import Mathlib

/-!
Verification development for the tcp-over-nostr tunnel protocol engine.

The Go source is embedded shallowly: pure functions become Lean functions,
the stateful receive loop becomes an explicit state machine, machine
integers become `Nat`/`Int` with explicit `% 2^64` where the Go code relies
on wrap-around.  External libraries that the repository only calls
(secp256k1 key derivation, NIP-44 authenticated encryption, JSON
marshalling, base64) are modelled by executable functions satisfying the
contracts the source relies on; each such model is marked in its doc
comment.  Everything else is translated directly from the Go files.
-/

namespace TcpNostr

/-! ## Models of the external cryptographic primitives

The repository treats `nostr.GetPublicKey`, `nip44.GenerateConversationKey`,
`nip44.Encrypt` and `nip44.Decrypt` as black boxes with these contracts:
public-key derivation is deterministic and injective, the conversation key
is a symmetric Diffie–Hellman combine of one party's private key with the
other party's public key, and encryption/decryption are inverse under the
same conversation key while decryption fails under mismatching data. -/

/-- Model of `nostr.GetPublicKey`: deterministic injective derivation of a
public key from a private scalar. -/
def getPublicKey (priv : Nat) : Nat := 2 * priv + 1

/-- Model of `nip44.GenerateConversationKey pub priv`: a symmetric
Diffie–Hellman combine.  With `getPublicKey b = 2*b+1` this evaluates to
`(b+1) * (a+1)`, so the derived key is the same from either side. -/
def genConversationKey (pub priv : Nat) : Nat := (pub / 2 + 1) * (priv + 1)

/-! ## Model of decimal rendering and scanning

`fmt.Sprintf "%d"` on an unsigned 64-bit integer and `fmt.Sscanf "%d"`
are modelled as decimal digit-list rendering and leading-digit-run
scanning; `Sscanf` ignores trailing non-digit characters and rejects a
string without a leading digit, and rejects values out of the target
integer range. -/

def digitChar (d : Nat) : Char :=
  match d with
  | 0 => '0' | 1 => '1' | 2 => '2' | 3 => '3' | 4 => '4'
  | 5 => '5' | 6 => '6' | 7 => '7' | 8 => '8' | _ => '9'

def charVal (c : Char) : Nat := c.toNat - 48

def isDigitChar (c : Char) : Bool := 48 ≤ c.toNat && c.toNat ≤ 57

/-- Little-endian base-10 digits with explicit fuel (kernel-reducible). -/
def decDigitsAux : Nat → Nat → List Nat
  | 0, _ => []
  | fuel + 1, n => if n = 0 then [] else (n % 10) :: decDigitsAux fuel (n / 10)

def decDigits (n : Nat) : List Nat := decDigitsAux n n

/-- Decimal rendering of a natural number, most significant digit first. -/
def decRepr (n : Nat) : List Char :=
  if n = 0 then ['0'] else ((decDigits n).reverse.map digitChar)

def decReprS (n : Nat) : String := ⟨decRepr n⟩

/-- Leading decimal digit run of a character list, as a number; `none` if
the list does not start with a digit. -/
def decParseDigits (cs : List Char) : Option Nat :=
  let ds := cs.takeWhile isDigitChar
  if ds.isEmpty then none
  else some (ds.foldl (fun a c => 10 * a + charVal c) 0)

/-- Model of `fmt.Sscanf s "%d" &x` for `x : uint64`. -/
def decParse (cs : List Char) : Option Nat :=
  match decParseDigits cs with
  | none => none
  | some v => if v < 2 ^ 64 then some v else none

def decParseS (s : String) : Option Nat := decParse s.data

/-- Model of `fmt.Sscanf s "%d" &x` for `x : int` (64-bit). -/
def decParseInt (cs : List Char) : Option Int :=
  match cs with
  | '-' :: rest =>
    (match decParseDigits rest with
     | none => none
     | some v => if v ≤ 2 ^ 63 then some (-(v : Int)) else none)
  | _ =>
    (match decParseDigits cs with
     | none => none
     | some v => if v < 2 ^ 63 then some (v : Int) else none)

def decParseIntS (s : String) : Option Int := decParseInt s.data

/-- Decimal rendering of a (Go `int`) value, used by `fmt.Sprintf "%d"`. -/
def intReprS (p : Int) : String :=
  if p < 0 then ⟨'-' :: decRepr (-p).toNat⟩ else ⟨decRepr p.toNat⟩

/-! ## Model of `encoding/base64` (standard encoding)

Modelled as an injective byte-to-text coding with validation: every byte
becomes two characters from a sixteen-character alphabet, decoding
validates every character and the length, and decoding inverts encoding.
The exact 6-bit alphabet of real base64 is abstracted; what the source
relies on is the round trip and the rejection of malformed text. -/

def hexChar (d : Nat) : Char :=
  match d with
  | 0 => '0' | 1 => '1' | 2 => '2' | 3 => '3' | 4 => '4'
  | 5 => '5' | 6 => '6' | 7 => '7' | 8 => '8' | 9 => '9'
  | 10 => 'a' | 11 => 'b' | 12 => 'c' | 13 => 'd' | 14 => 'e' | _ => 'f'

def hexVal (c : Char) : Nat := if c.toNat ≤ 57 then c.toNat - 48 else c.toNat - 87

def isHexChar (c : Char) : Bool :=
  (48 ≤ c.toNat && c.toNat ≤ 57) || (97 ≤ c.toNat && c.toNat ≤ 102)

def b64Encode : List Nat → List Char
  | [] => []
  | b :: rest => hexChar (b / 16) :: hexChar (b % 16) :: b64Encode rest

def b64Decode : List Char → Option (List Nat)
  | [] => some []
  | [_] => none
  | c1 :: c2 :: rest =>
    if isHexChar c1 && isHexChar c2 then
      (b64Decode rest).map (fun l => (16 * hexVal c1 + hexVal c2) :: l)
    else none

def b64EncodeS (bs : List Nat) : String := ⟨b64Encode bs⟩

def b64DecodeS (s : String) : Option (List Nat) := b64Decode s.data

/-! ## Substring containment, model of `strings.Contains` -/

def hasSub (pat : List Char) : List Char → Bool
  | [] => pat.isEmpty
  | c :: rest => pat.isPrefixOf (c :: rest) || hasSub pat rest

def containsSub (s pat : String) : Bool := hasSub pat.data s.data

/-! ## Events

Model of `nostr.Event` as used by the tunnel code.  The `content` field of
a gift wrap or a seal holds a NIP-44 ciphertext of the JSON-serialized
inner event; since `json.Marshal`/`json.Unmarshal` round-trip an event,
the ciphertext is modelled as the inner event paired with the conversation
key it was encrypted under (`NContent.enc`), and a rumor's plain content
is a string (`NContent.str`).  The never-read `id` field is omitted;
`created_at` is threaded as an explicit `now` parameter. -/

mutual

inductive NContent : Type where
  | str (s : String) : NContent
  | enc (key : Nat) (inner : NEvent) : NContent

inductive NEvent : Type where
  | mk (kind : Nat) (createdAt : Nat) (content : NContent)
       (tags : List (List String)) (pubkey : Nat) (sig : Option Nat) : NEvent

end

def NEvent.kind : NEvent → Nat
  | .mk k _ _ _ _ _ => k

def NEvent.createdAt : NEvent → Nat
  | .mk _ t _ _ _ _ => t

def NEvent.content : NEvent → NContent
  | .mk _ _ c _ _ _ => c

def NEvent.tags : NEvent → List (List String)
  | .mk _ _ _ ts _ _ => ts

def NEvent.pubkey : NEvent → Nat
  | .mk _ _ _ _ p _ => p

def NEvent.sig : NEvent → Option Nat
  | .mk _ _ _ _ _ s => s

/-- Model of `nip44.Encrypt (json.Marshal inner) key`. -/
def nip44Encrypt (inner : NEvent) (key : Nat) : NContent := .enc key inner

/-- Model of `nip44.Decrypt` followed by `json.Unmarshal`: succeeds exactly
when the supplied key matches the encryption key (authenticated
encryption), returning the serialized inner event. -/
def nip44Decrypt : NContent → Nat → Option NEvent
  | .enc k inner, key => if k = key then some inner else none
  | .str _, _ => none

/-- Model of `event.Sign(priv)`: sets the event pubkey from the private key
and attaches a signature.  A signature is modelled as the public key of the
signer, so `checkSignature` succeeds exactly on events signed with the
private key matching their `pubkey` field. -/
def signEvent (priv : Nat) (e : NEvent) : NEvent :=
  .mk e.kind e.createdAt e.content e.tags (getPublicKey priv) (some (getPublicKey priv))

/-- Model of `event.CheckSignature()`. -/
def checkSignature (e : NEvent) : Bool := e.sig == some e.pubkey

/-! ## Packets, key material and parsed packets (from packet.go / nostr.go) -/

/-- Current-revision `Packet`: raw TCP bytes only, all metadata lives in
event tags. -/
structure Packet where
  data : List Nat
deriving DecidableEq

def CreateDataPacket (data : List Nat) : Packet := ⟨data⟩

def CreateEmptyPacket : Packet := ⟨[]⟩

abbrev PacketType := String

def PacketTypeOpen : PacketType := "open"
def PacketTypeData : PacketType := "data"
def PacketTypeClose : PacketType := "close"
def PacketTypeAck : PacketType := "ack"
def PacketTypeHeartbeat : PacketType := "heartbeat"

structure NostrKeys where
  privateKey : Nat
  publicKey : Nat
deriving DecidableEq

structure KeyPair where
  privateKey : Nat
  publicKey : Nat
deriving DecidableEq

/-- Version string of the current revision (version.go). -/
def Version : String := "v2.0.2"

/-- Metadata arguments threaded through `CreateNostrEvent`,
`createEphemeralRumor` and `CreateEphemeralGiftWrappedEvent`; the Go code
passes them as individual parameters. -/
structure Meta where
  packetType : PacketType
  sessionID : String
  sequence : Nat
  direction : String
  targetHost : String
  targetPort : Int
  clientAddr : String
  errorMsg : String

structure ParsedPacket where
  packet : Packet
  type : PacketType
  sessionID : String
  sequence : Nat
  direction : String
  targetHost : String
  targetPort : Int
  clientAddr : String
  errorMsg : String
  clientPubkey : Nat
deriving DecidableEq

/-- Helper from `ParseNostrEvent`/`parseRumorAsPacket`: first tag whose
name matches, or the empty string. -/
def getTagValue (tags : List (List String)) (name : String) : String :=
  match tags.find? (fun t => decide (2 ≤ t.length) && (t.getD 0 "" == name)) with
  | some t => t.getD 1 ""
  | none => ""

/-- `IsEventForMe` from nostr.go. -/
def isEventForMe (e : NEvent) (myPubkey : Nat) : Bool :=
  e.tags.any (fun t => decide (2 ≤ t.length) && (t.getD 0 "" == "p")
    && (t.getD 1 "" == decReprS myPubkey))

/-- `isVersionCompatible` from the current nostr.go revision. -/
def isVersionCompatible (version : String) : Bool :=
  containsSub version "2.0." || containsSub version "v2.0."

/-- `CheckVersionCompatibility` from the current nostr.go revision: first
`version` tag decides; a missing version tag is treated as a legacy 1.x
event and allowed. -/
def CheckVersionCompatibility (e : NEvent) : Bool × String :=
  match e.tags.find? (fun t => decide (2 ≤ t.length) && (t.getD 0 "" == "version")) with
  | some t =>
    let v := t.getD 1 ""
    if isVersionCompatible v then (true, v) else (false, v)
  | none => (true, "1.x (no version tag)")

/-- `parseRumorAsPacket` from the current nostr.go revision: kind gate,
version gate, base64 content decode, tag extraction, numeric sequence and
target-port scanning.  Note that it does not look at the `proxy` tag. -/
def parseRumorAsPacket (rumor : NEvent) : Option ParsedPacket :=
  if rumor.kind ≠ 20547 then none
  else if ¬ (CheckVersionCompatibility rumor).1 then none
  else
    let dataOpt : Option (List Nat) :=
      match rumor.content with
      | .str s => if s = "" then some [] else b64DecodeS s
      | .enc _ _ => none
    match dataOpt with
    | none => none
    | some data =>
      let seqStr := getTagValue rumor.tags "sequence"
      match (if seqStr = "" then some 0 else decParseS seqStr) with
      | none => none
      | some seq =>
        let portStr := getTagValue rumor.tags "target_port"
        match (if portStr = "" then some 0 else decParseIntS portStr) with
        | none => none
        | some port =>
          some { packet := ⟨data⟩
                 type := getTagValue rumor.tags "type"
                 sessionID := getTagValue rumor.tags "session"
                 sequence := seq
                 direction := getTagValue rumor.tags "direction"
                 targetHost := getTagValue rumor.tags "target_host"
                 targetPort := port
                 clientAddr := getTagValue rumor.tags "client_addr"
                 errorMsg := getTagValue rumor.tags "error"
                 clientPubkey := rumor.pubkey }

/-- Legacy `parseRumorAsPacket` from nostr.go (older revision): identical
except that it performs no version check. -/
def legacyParseRumorAsPacket (rumor : NEvent) : Option ParsedPacket :=
  if rumor.kind ≠ 20547 then none
  else
    let dataOpt : Option (List Nat) :=
      match rumor.content with
      | .str s => if s = "" then some [] else b64DecodeS s
      | .enc _ _ => none
    match dataOpt with
    | none => none
    | some data =>
      let seqStr := getTagValue rumor.tags "sequence"
      match (if seqStr = "" then some 0 else decParseS seqStr) with
      | none => none
      | some seq =>
        let portStr := getTagValue rumor.tags "target_port"
        match (if portStr = "" then some 0 else decParseIntS portStr) with
        | none => none
        | some port =>
          some { packet := ⟨data⟩
                 type := getTagValue rumor.tags "type"
                 sessionID := getTagValue rumor.tags "session"
                 sequence := seq
                 direction := getTagValue rumor.tags "direction"
                 targetHost := getTagValue rumor.tags "target_host"
                 targetPort := port
                 clientAddr := getTagValue rumor.tags "client_addr"
                 errorMsg := getTagValue rumor.tags "error"
                 clientPubkey := rumor.pubkey }

/-! ## KeyManager and the ephemeral-key / conversation-key cache
(current nostr.go revision) -/

structure KeyManager where
  keys : Option NostrKeys
  ephemeralKeyPool : List KeyPair
  keyPoolIndex : Nat
  conversationKeyCache : List (Nat × List Nat)
  initializedTargets : List Nat

/-- `km.keyPoolSize` is set once from the pool length at initialization. -/
def keyPoolSize (km : KeyManager) : Nat := km.ephemeralKeyPool.length

/-- Loop body of `initializeTargetCache`: `conversationKeys[i] =
nip44.GenerateConversationKey(targetPubkey, pool[i].PrivateKey)` for
`i = 0 .. n-1`, built in loop order. -/
def convKeysUpTo (target : Nat) (pool : List KeyPair) : Nat → List Nat
  | 0 => []
  | i + 1 =>
    convKeysUpTo target pool i
      ++ [genConversationKey target ((pool.getD i ⟨0, 0⟩).privateKey)]

/-- `initializeTargetCache` from the current nostr.go revision. -/
def initializeTargetCache (km : KeyManager) (targetPubkey : Nat) : KeyManager :=
  if km.initializedTargets.contains targetPubkey then km
  else
    { km with
      conversationKeyCache :=
        (targetPubkey, convKeysUpTo targetPubkey km.ephemeralKeyPool (keyPoolSize km))
          :: km.conversationKeyCache
      initializedTargets := targetPubkey :: km.initializedTargets }

/-- `ensureTargetInitialized` from the current nostr.go revision. -/
def ensureTargetInitialized (km : KeyManager) (targetPubkey : Nat) : KeyManager :=
  if km.initializedTargets.contains targetPubkey then km
  else initializeTargetCache km targetPubkey

/-- `getNextEphemeralKey`: atomic fetch-and-increment of the `uint64`
counter, index is the new counter value modulo the pool size. -/
def getNextEphemeralKey (km : KeyManager) : KeyPair × Nat × KeyManager :=
  let newCounter := (km.keyPoolIndex + 1) % 2 ^ 64
  let index := newCounter % keyPoolSize km
  (km.ephemeralKeyPool.getD index ⟨0, 0⟩, index, { km with keyPoolIndex := newCounter })

/-- `getConversationKey` from the current nostr.go revision. -/
def getConversationKey (km : KeyManager) (targetPubkey : Nat) (ephemeralKeyIndex : Nat) : Nat :=
  ((km.conversationKeyCache.lookup targetPubkey).getD []).getD ephemeralKeyIndex 0

/-- `createEphemeralRumor`, generalized over the version-tag value (the
source always writes `Version`; the generalization is used to state the
version-gating property). -/
def createEphemeralRumorWith (v : String) (keys : NostrKeys) (packet : Packet)
    (m : Meta) (now : Nat) : NEvent :=
  let content := if packet.data.length > 0 then b64EncodeS packet.data else ""
  let tags :=
    [["proxy", "tcp"], ["version", v], ["type", m.packetType],
     ["session", m.sessionID], ["sequence", decReprS m.sequence],
     ["direction", m.direction]]
  let tags := tags ++ (if m.targetHost ≠ "" then [["target_host", m.targetHost]] else [])
  let tags := tags ++ (if m.targetPort > 0 then [["target_port", intReprS m.targetPort]] else [])
  let tags := tags ++ (if m.clientAddr ≠ "" then [["client_addr", m.clientAddr]] else [])
  let tags := tags ++ (if m.errorMsg ≠ "" then [["error", m.errorMsg]] else [])
  NEvent.mk 20547 now (.str content) tags keys.publicKey none

/-- `createEphemeralRumor` from the current nostr.go revision (unsigned
kind-20547 event carrying the metadata tags and the sender's identity
public key). -/
def createEphemeralRumor (keys : NostrKeys) (packet : Packet) (m : Meta) (now : Nat) : NEvent :=
  createEphemeralRumorWith Version keys packet m now

/-- `createEphemeralGiftWrap` from the current nostr.go revision: pick the
next pooled one-time key, encrypt the rumor under the cached conversation
key at that index, and sign the kind-21059 wrap with the one-time key. -/
def createEphemeralGiftWrap (km : KeyManager) (rumor : NEvent) (targetPubkey : Nat)
    (now : Nat) : NEvent × KeyManager :=
  let km1 := ensureTargetInitialized km targetPubkey
  let (oneTimeKey, ephemeralKeyIndex, km2) := getNextEphemeralKey km1
  let conversationKey := getConversationKey km2 targetPubkey ephemeralKeyIndex
  let giftWrap : NEvent :=
    .mk 21059 now (nip44Encrypt rumor conversationKey)
      [["p", decReprS targetPubkey]] oneTimeKey.publicKey none
  (signEvent oneTimeKey.privateKey giftWrap, km2)

/-- `CreateEphemeralGiftWrappedEvent` from the current nostr.go revision:
the rumor is encrypted directly into the gift wrap, no seal layer. -/
def CreateEphemeralGiftWrappedEvent (km : KeyManager) (packet : Packet)
    (targetPubkey : Nat) (m : Meta) (now : Nat) : Option (NEvent × KeyManager) :=
  match km.keys with
  | none => none
  | some keys =>
    let rumor := createEphemeralRumor keys packet m now
    some (createEphemeralGiftWrap km rumor targetPubkey now)

/-- `UnwrapEphemeralGiftWrap` from the current nostr.go revision: derive
the conversation key from the gift-wrap pubkey and our private key,
decrypt, and parse the decrypted event directly as a rumor. -/
def UnwrapEphemeralGiftWrap (km : KeyManager) (giftWrap : NEvent) : Option ParsedPacket :=
  match km.keys with
  | none => none
  | some keys =>
    let conversationKey := genConversationKey giftWrap.pubkey keys.privateKey
    match nip44Decrypt giftWrap.content conversationKey with
    | none => none
    | some rumor => parseRumorAsPacket rumor

/-! ## Legacy seal-based envelope (nostr.go, older revision) -/

/-- `createEphemeralSeal` from the legacy nostr.go revision: kind 20013,
rumor encrypted under the identity-to-identity conversation key, signed by
the real sender. -/
def createEphemeralSeal (keys : NostrKeys) (rumor : NEvent) (targetPubkey : Nat)
    (now : Nat) : NEvent :=
  let conversationKey := genConversationKey targetPubkey keys.privateKey
  signEvent keys.privateKey
    (.mk 20013 now (nip44Encrypt rumor conversationKey) [] keys.publicKey none)

/-- `createEphemeralGiftWrap` from the legacy nostr.go revision: a freshly
generated one-time keypair (passed as `oneTimePriv`) encrypts the seal. -/
def legacyCreateEphemeralGiftWrap (sealEv : NEvent) (targetPubkey : Nat)
    (oneTimePriv : Nat) (now : Nat) : NEvent :=
  let conversationKey := genConversationKey targetPubkey oneTimePriv
  signEvent oneTimePriv
    (.mk 21059 now (nip44Encrypt sealEv conversationKey)
      [["p", decReprS targetPubkey]] (getPublicKey oneTimePriv) none)

/-- `UnwrapEphemeralGiftWrap` from the legacy nostr.go revision: decrypt
the seal, verify its signature, decrypt the rumor under the
sender-to-recipient conversation key, parse the rumor. -/
def legacyUnwrapEphemeralGiftWrap (km : KeyManager) (giftWrap : NEvent) : Option ParsedPacket :=
  match km.keys with
  | none => none
  | some keys =>
    let conversationKey := genConversationKey giftWrap.pubkey keys.privateKey
    match nip44Decrypt giftWrap.content conversationKey with
    | none => none
    | some sealEv =>
      if ¬ checkSignature sealEv then none
      else
        let rumorConversationKey := genConversationKey sealEv.pubkey keys.privateKey
        match nip44Decrypt sealEv.content rumorConversationKey with
        | none => none
        | some rumor => legacyParseRumorAsPacket rumor

/-! ## Receive loop of the client (readServerNostrResponses,
client_nostr.go).  The loop is embedded as a state machine over the list
of events taken from the relay channel; the bytes written to the TCP
connection are accumulated in `out`, and the `return` statements of the
Go function become a `true` stop flag. -/

structure RecvState where
  processedSequences : List Nat
  nextExpectedSequence : Nat
  pendingPackets : List (Nat × ParsedPacket)
  out : List Nat
deriving DecidableEq

def initRecvState : RecvState := ⟨[], 0, [], []⟩

/-- Go map lookup `pendingPackets[seq]`. -/
def pendLookup (seq : Nat) (pending : List (Nat × ParsedPacket)) : Option ParsedPacket :=
  (pending.find? (fun p => p.1 == seq)).map Prod.snd

/-- Go map assignment `pendingPackets[seq] = pkt`. -/
def pendInsert (seq : Nat) (pkt : ParsedPacket)
    (pending : List (Nat × ParsedPacket)) : List (Nat × ParsedPacket) :=
  (seq, pkt) :: pending.filter (fun p => ¬ p.1 == seq)

/-- Go `delete(pendingPackets, seq)`. -/
def pendErase (seq : Nat) (pending : List (Nat × ParsedPacket)) : List (Nat × ParsedPacket) :=
  pending.filter (fun p => ¬ p.1 == seq)

/-- Collection loop for consecutive buffered packets: starting at `seq`,
repeatedly take `pendingPackets[seq]`, delete it, and advance.  The Go
`for` loop terminates because every iteration deletes one entry of the
finite map; the explicit fuel (initialized to the map size, which the
loop can never exhaust) makes the recursion structural. -/
def collectChainAux : Nat → List (Nat × ParsedPacket) → Nat →
    List ParsedPacket × List (Nat × ParsedPacket)
  | 0, pending, _ => ([], pending)
  | fuel + 1, pending, seq =>
    match pendLookup seq pending with
    | none => ([], pending)
    | some pkt =>
      let res := collectChainAux fuel (pendErase seq pending) (seq + 1)
      (pkt :: res.1, res.2)

def collectChain (pending : List (Nat × ParsedPacket)) (seq : Nat) :
    List ParsedPacket × List (Nat × ParsedPacket) :=
  collectChainAux pending.length pending seq

/-- Processing loop over `packetsToProcess`: mark processed, write data
payloads, stop on close (the Go `return`), advance `nextExpected`. -/
def procPackets : List ParsedPacket → RecvState → RecvState × Bool
  | [], st => (st, false)
  | pkt :: rest, st =>
    let st1 := { st with processedSequences := pkt.sequence :: st.processedSequences }
    if pkt.type = PacketTypeData then
      let st2 := if pkt.packet.data.length > 0
        then { st1 with out := st1.out ++ pkt.packet.data } else st1
      procPackets rest { st2 with nextExpectedSequence := pkt.sequence + 1 }
    else if pkt.type = PacketTypeClose then (st1, true)
    else procPackets rest { st1 with nextExpectedSequence := pkt.sequence + 1 }

/-- Session-layer part of one loop iteration, after the unwrap: session
and direction filters, duplicate suppression, out-of-order buffering, and
the in-order drain. -/
def pureStep (sessionID : String) (st : RecvState) (pp : ParsedPacket) : RecvState × Bool :=
  if pp.sessionID ≠ sessionID then (st, false)
  else if pp.direction ≠ "server_to_client" then (st, false)
  else if st.processedSequences.contains pp.sequence then (st, false)
  else if pp.sequence ≠ st.nextExpectedSequence then
    ({ st with pendingPackets := pendInsert pp.sequence pp st.pendingPackets }, false)
  else
    let res := collectChain st.pendingPackets (st.nextExpectedSequence + 1)
    procPackets (pp :: res.1) { st with pendingPackets := res.2 }

/-- One iteration of `readServerNostrResponses` on a received event. -/
def clientStep (km : KeyManager) (sessionID : String) (clientPubkey : Nat)
    (st : RecvState) (event : NEvent) : RecvState × Bool :=
  if ¬ isEventForMe event clientPubkey then (st, false)
  else
    match UnwrapEphemeralGiftWrap km event with
    | none => (st, false)
    | some pp => pureStep sessionID st pp

/-- The receive loop over a list of delivered events; a stop flag `true`
means the Go function returned. -/
def runLoopAux (km : KeyManager) (sessionID : String) (clientPubkey : Nat) :
    List NEvent → RecvState → RecvState × Bool
  | [], st => (st, false)
  | ev :: rest, st =>
    let res := clientStep km sessionID clientPubkey st ev
    if res.2 then res else runLoopAux km sessionID clientPubkey rest res.1

def runLoop (km : KeyManager) (sessionID : String) (clientPubkey : Nat)
    (events : List NEvent) (st : RecvState) : RecvState :=
  (runLoopAux km sessionID clientPubkey events st).1

/-! ## Relay pool (NewNostrRelayHandler / PublishEvent).  The external
`SimplePool` is modelled by the outcomes it reports: per-URL connection
success for `EnsureRelay`, and a per-relay publish result stream for
`PublishMany`. -/

structure PublishResult where
  relayURL : String
  error : Option String
deriving DecidableEq

/-- Accumulation loop of `PublishEvent`: count successes, collect
formatted per-relay errors in arrival order. -/
def publishLoop : List PublishResult → Nat → List String → Nat × List String
  | [], successCount, errors => (successCount, errors)
  | r :: rest, successCount, errors =>
    match r.error with
    | some e => publishLoop rest successCount (errors ++ [r.relayURL ++ ": " ++ e])
    | none => publishLoop rest (successCount + 1) errors

/-- `PublishEvent` from the current nostr.go revision: succeed iff at
least one relay acknowledged, otherwise return the accumulated per-relay
error list. -/
def PublishEvent (results : List PublishResult) : Except (List String) Unit :=
  let res := publishLoop results 0 []
  if res.1 = 0 then .error res.2 else .ok ()

/-- `NewNostrRelayHandler`: attempt `EnsureRelay` per URL (`.2` is the
connection outcome), fail construction only if the pool stayed empty; the
handler retains the full configured URL list. -/
def NewNostrRelayHandler (relays : List (String × Bool)) : Option (List String) :=
  if (relays.filter (fun r => r.2)).length = 0 then none
  else some (relays.map (fun r => r.1))

/-! ## Specification-side ghost definitions used to state and prove the
ordering properties of the receive loop. -/

/-- Existence of a natural number outside any given list. -/
def existsNotMemList (S : List Nat) : ∃ m, m ∉ S :=
  ⟨S.foldr max 0 + 1, by
    intro hmem
    have h : ∀ (T : List Nat), ∀ x ∈ T, x ≤ T.foldr max 0 := by
      intro T
      induction T with
      | nil => intro x hx; cases hx
      | cons a t ih =>
        intro x hx
        rcases List.mem_cons.mp hx with h1 | h2
        · subst h1; exact le_max_left _ _
        · exact le_trans (ih x h2) (le_max_right _ _)
    have := h S _ hmem
    omega⟩

/-- Least natural number not occurring in `S`. -/
def leastNotIn (S : List Nat) : Nat :=
  Nat.find (existsNotMemList S)

/-- Parsed data packet of a given session and sequence as produced by the
unwrap path for a server-to-client data event. -/
def dataPP (srcPub : Nat) (sessionID : String) (seq : Nat) (payload : List Nat) : ParsedPacket :=
  { packet := ⟨payload⟩
    type := PacketTypeData
    sessionID := sessionID
    sequence := seq
    direction := "server_to_client"
    targetHost := ""
    targetPort := 0
    clientAddr := ""
    errorMsg := ""
    clientPubkey := srcPub }

/-- Invariant of the receive loop after the set `S` of sequence numbers of
the delivered data packets: `nextExpected` is the least missing sequence,
the processed set is exactly the downward-closed prefix, the pending map
holds exactly the delivered but not yet deliverable packets, and the
output is the in-order concatenation of the delivered prefix. -/
def Inv (payload : Nat → List Nat) (srcPub : Nat) (sid : String)
    (S : List Nat) (st : RecvState) : Prop :=
  st.nextExpectedSequence = leastNotIn S ∧
  (∀ j, st.processedSequences.contains j = decide (j < leastNotIn S)) ∧
  (∀ j, pendLookup j st.pendingPackets =
    if j ∈ S ∧ leastNotIn S ≤ j then some (dataPP srcPub sid j (payload j)) else none) ∧
  st.out = ((List.range' 0 (leastNotIn S)).map payload).flatten

/-- Index used by `getNextEphemeralKey` starting from counter value `c`. -/
def poolIdx (km : KeyManager) : Nat :=
  ((km.keyPoolIndex + 1) % 2 ^ 64) % keyPoolSize km

/-! ## Lemmas about the primitive models -/

theorem decDigitsAux_eq (fuel : Nat) :
    ∀ n : Nat, n ≤ fuel → decDigitsAux fuel n = Nat.digits 10 n := by
  induction fuel with
  | zero =>
    intro n h
    have h0 : n = 0 := by omega
    subst h0
    simp [decDigitsAux]
  | succ k ih =>
    intro n h
    by_cases h0 : n = 0
    · subst h0
      simp [decDigitsAux]
    · have hstep : decDigitsAux (k + 1) n = (n % 10) :: decDigitsAux k (n / 10) := by
        conv_lhs => rw [decDigitsAux]
        rw [if_neg h0]
      have hdiv : n / 10 ≤ k := by
        have h1 : n / 10 < n := Nat.div_lt_self (by omega) (by norm_num)
        omega
      rw [hstep, ih (n / 10) hdiv]
      exact (Nat.digits_def' (show 1 < 10 by norm_num) (by omega)).symm

theorem decDigits_eq_digits (n : Nat) : decDigits n = Nat.digits 10 n :=
  decDigitsAux_eq n n le_rfl

theorem genConversationKey_symm (a b : Nat) :
    genConversationKey (getPublicKey b) a = genConversationKey (getPublicKey a) b := by
  have h1 : (2 * b + 1) / 2 = b := by omega
  have h2 : (2 * a + 1) / 2 = a := by omega
  simp only [genConversationKey, getPublicKey, h1, h2]
  ring

theorem charVal_digitChar (d : Nat) (h : d < 10) : charVal (digitChar d) = d := by
  interval_cases d <;> decide

theorem isDigitChar_digitChar (d : Nat) (h : d < 10) : isDigitChar (digitChar d) = true := by
  interval_cases d <;> decide

theorem takeWhile_all {p : Char → Bool} (l : List Char) (h : ∀ c ∈ l, p c = true) :
    l.takeWhile p = l := by
  induction l with
  | nil => rfl
  | cons a t ih =>
    rw [List.takeWhile_cons, h a (by simp)]
    simp only [if_pos]
    rw [ih (fun c hc => h c (by simp [hc]))]

theorem foldl_mul_add (l : List Nat) (acc : Nat) :
    l.foldl (fun a d => 10 * a + d) acc = acc * 10 ^ l.length + Nat.ofDigits 10 l.reverse := by
  induction l generalizing acc with
  | nil => simp
  | cons d t ih =>
    simp only [List.foldl_cons, List.length_cons, List.reverse_cons]
    rw [ih, Nat.ofDigits_append]
    simp only [Nat.ofDigits_singleton, List.length_reverse]
    ring

theorem foldl_charVal (L : List Nat) (hL : ∀ d ∈ L, d < 10) (a : Nat) :
    (L.map digitChar).foldl (fun x c => 10 * x + charVal c) a
      = L.foldl (fun x d => 10 * x + d) a := by
  induction L generalizing a with
  | nil => rfl
  | cons d t ih =>
    simp only [List.map_cons, List.foldl_cons]
    rw [charVal_digitChar d (hL d (by simp))]
    exact ih (fun x hx => hL x (by simp [hx])) _

theorem decParseDigits_decRepr (n : Nat) : decParseDigits (decRepr n) = some n := by
  by_cases h0 : n = 0
  · subst h0; decide
  · unfold decRepr decParseDigits
    rw [if_neg h0, decDigits_eq_digits]
    have hd : ∀ c ∈ (Nat.digits 10 n).reverse.map digitChar, isDigitChar c = true := by
      intro c hc
      simp only [List.mem_map, List.mem_reverse] at hc
      obtain ⟨d, hd1, rfl⟩ := hc
      exact isDigitChar_digitChar d (Nat.digits_lt_base (by norm_num) hd1)
    simp only [takeWhile_all _ hd]
    have hne : ((Nat.digits 10 n).reverse.map digitChar).isEmpty = false := by
      simp [List.isEmpty_iff, Nat.digits_ne_nil_iff_ne_zero, h0]
    rw [if_neg (by simp [Nat.digits_ne_nil_iff_ne_zero, h0])]
    congr 1
    rw [foldl_charVal _ (fun d hd2 =>
      Nat.digits_lt_base (by norm_num) (by simpa using hd2)) 0]
    rw [foldl_mul_add]
    simp [Nat.ofDigits_digits]

theorem decParseS_decReprS (n : Nat) (h : n < 2 ^ 64) : decParseS (decReprS n) = some n := by
  show decParse (decRepr n) = some n
  unfold decParse
  rw [decParseDigits_decRepr n]
  show (if n < 2 ^ 64 then some n else none) = some n
  rw [if_pos h]

theorem decRepr_head_digit (n : Nat) :
    ∃ c cs, decRepr n = c :: cs ∧ isDigitChar c = true := by
  unfold decRepr
  by_cases h0 : n = 0
  · exact ⟨'0', [], by simp [h0], by decide⟩
  · rw [if_neg h0, decDigits_eq_digits]
    have hnil : (Nat.digits 10 n).reverse ≠ [] := by
      simp [Nat.digits_ne_nil_iff_ne_zero, h0]
    cases hrev : (Nat.digits 10 n).reverse with
    | nil => exact absurd hrev hnil
    | cons d ds =>
      refine ⟨digitChar d, ds.map digitChar, by simp [hrev], ?_⟩
      apply isDigitChar_digitChar
      exact Nat.digits_lt_base (by norm_num)
        (by rw [← List.mem_reverse, hrev]; simp)

theorem decParseInt_decRepr (n : Nat) (h : n < 2 ^ 63) :
    decParseInt (decRepr n) = some (n : Int) := by
  obtain ⟨c, cs, hcons, hdig⟩ := decRepr_head_digit n
  have hrt := decParseDigits_decRepr n
  rw [hcons] at hrt ⊢
  have hc : c ≠ '-' := by
    intro hcc
    rw [hcc] at hdig
    exact absurd hdig (by decide)
  unfold decParseInt
  split
  · rename_i rest heq
    injection heq with hh1 hh2
    exact absurd hh1 hc
  · rw [hrt]
    show (if n < 2 ^ 63 then some ((n : Nat) : Int) else none) = some (n : Int)
    rw [if_pos h]

theorem decParseIntS_intReprS (p : Int) (h0 : 0 < p) (h1 : p < 2 ^ 63) :
    decParseIntS (intReprS p) = some p := by
  unfold decParseIntS intReprS
  rw [if_neg (by omega)]
  show decParseInt (decRepr p.toNat) = some p
  rw [decParseInt_decRepr p.toNat (by omega)]
  congr 1
  exact Int.toNat_of_nonneg (by omega)

theorem isHexChar_hexChar (d : Nat) (h : d < 16) : isHexChar (hexChar d) = true := by
  interval_cases d <;> decide

theorem hexVal_hexChar (d : Nat) (h : d < 16) : hexVal (hexChar d) = d := by
  interval_cases d <;> decide

theorem b64Decode_b64Encode (l : List Nat) (h : ∀ b ∈ l, b < 256) :
    b64Decode (b64Encode l) = some l := by
  induction l with
  | nil => rfl
  | cons b t ih =>
    have hb : b < 256 := h b (by simp)
    have hd1 : b / 16 < 16 := by omega
    have hd2 : b % 16 < 16 := by omega
    simp [b64Encode, b64Decode, isHexChar_hexChar _ hd1, isHexChar_hexChar _ hd2,
      hexVal_hexChar _ hd1, hexVal_hexChar _ hd2,
      ih (fun x hx => h x (by simp [hx]))]
    omega

theorem b64DecodeS_b64EncodeS (l : List Nat) (h : ∀ b ∈ l, b < 256) :
    b64DecodeS (b64EncodeS l) = some l := by
  show b64Decode (b64Encode l) = some l
  exact b64Decode_b64Encode l h

theorem decRepr_ne_nil (n : Nat) : decRepr n ≠ [] := by
  unfold decRepr
  split
  · simp
  · rw [decDigits_eq_digits]
    simp [Nat.digits_ne_nil_iff_ne_zero, *]

theorem decReprS_ne_empty (n : Nat) : decReprS n ≠ "" := by
  intro hcontra
  have h2 : decRepr n = [] := by
    have := congrArg String.data hcontra
    simpa [decReprS] using this
  exact decRepr_ne_nil n h2

theorem b64EncodeS_ne_empty (b : Nat) (t : List Nat) : b64EncodeS (b :: t) ≠ "" := by
  intro hcontra
  have := congrArg String.data hcontra
  simp [b64EncodeS, b64Encode] at this

theorem intReprS_ne_empty (p : Int) (h : 0 < p) : intReprS p ≠ "" := by
  unfold intReprS
  rw [if_neg (by omega)]
  intro hcontra
  have := congrArg String.data hcontra
  simpa using absurd this (decRepr_ne_nil p.toNat)

/-! ## Tag-lookup computations on created rumors -/

theorem getTagValue_cons_hit (name val : String) (rest : List (List String)) :
    getTagValue ([name, val] :: rest) name = val := by
  simp [getTagValue, List.find?]

theorem getTagValue_cons_miss (tag : List String) (rest : List (List String)) (name : String)
    (h : tag.getD 0 "" ≠ name) :
    getTagValue (tag :: rest) name = getTagValue rest name := by
  unfold getTagValue
  rw [List.find?_cons_of_neg]
  simp only [Bool.and_eq_true, decide_eq_true_eq, beq_iff_eq, not_and]
  intro _
  exact h

theorem getTagValue_ifchunk_miss (c : Prop) [Decidable c] (n1 v1 : String)
    (rest : List (List String)) (name : String) (h : n1 ≠ name) :
    getTagValue ((if c then [[n1, v1]] else []) ++ rest) name = getTagValue rest name := by
  split
  · exact getTagValue_cons_miss _ _ _ (by simpa using h)
  · simp

theorem getTagValue_ifchunk_self (c : Prop) [Decidable c] (hc : c) (n1 v1 : String)
    (rest : List (List String)) :
    getTagValue ((if c then [[n1, v1]] else []) ++ rest) n1 = v1 := by
  rw [if_pos hc]
  exact getTagValue_cons_hit _ _ _

theorem getTagValue_ifchunk_none (c : Prop) [Decidable c] (hc : ¬c)
    (n1 v1 : String) (rest : List (List String)) (name : String) :
    getTagValue ((if c then [[n1, v1]] else []) ++ rest) name = getTagValue rest name := by
  rw [if_neg hc]
  simp

theorem getTagValue_if_single_miss (c : Prop) [Decidable c] (n1 v1 name : String)
    (h : n1 ≠ name) :
    getTagValue (if c then [[n1, v1]] else []) name = "" := by
  split
  · rw [getTagValue_cons_miss _ _ _ (by simpa using h)]; rfl
  · rfl

theorem getTagValue_if_single_self (c : Prop) [Decidable c] (hc : c) (n1 v1 : String) :
    getTagValue (if c then [[n1, v1]] else []) n1 = v1 := by
  rw [if_pos hc]
  exact getTagValue_cons_hit _ _ _

theorem getTagValue_if_single_none (c : Prop) [Decidable c] (hc : ¬c) (n1 v1 name : String) :
    getTagValue (if c then [[n1, v1]] else []) name = "" := by
  rw [if_neg hc]
  rfl

theorem tags_createRumor (v : String) (keys : NostrKeys) (pk : Packet) (m : Meta) (now : Nat) :
    (createEphemeralRumorWith v keys pk m now).tags =
      ["proxy", "tcp"] :: ["version", v] :: ["type", m.packetType] ::
      ["session", m.sessionID] :: ["sequence", decReprS m.sequence] ::
      ["direction", m.direction] ::
      ((if m.targetHost ≠ "" then [["target_host", m.targetHost]] else []) ++
       ((if m.targetPort > 0 then [["target_port", intReprS m.targetPort]] else []) ++
        ((if m.clientAddr ≠ "" then [["client_addr", m.clientAddr]] else []) ++
         (if m.errorMsg ≠ "" then [["error", m.errorMsg]] else [])))) := by
  unfold createEphemeralRumorWith
  simp [NEvent.tags, List.append_assoc]

theorem getTag_type_createRumor (v : String) (keys : NostrKeys) (pk : Packet) (m : Meta) (now : Nat) :
    getTagValue (createEphemeralRumorWith v keys pk m now).tags "type" = m.packetType := by
  rw [tags_createRumor]
  rw [getTagValue_cons_miss _ _ _ (by simp), getTagValue_cons_miss _ _ _ (by simp)]
  exact getTagValue_cons_hit _ _ _

theorem getTag_session_createRumor (v : String) (keys : NostrKeys) (pk : Packet) (m : Meta) (now : Nat) :
    getTagValue (createEphemeralRumorWith v keys pk m now).tags "session" = m.sessionID := by
  rw [tags_createRumor]
  rw [getTagValue_cons_miss _ _ _ (by simp), getTagValue_cons_miss _ _ _ (by simp),
    getTagValue_cons_miss _ _ _ (by simp)]
  exact getTagValue_cons_hit _ _ _

theorem getTag_sequence_createRumor (v : String) (keys : NostrKeys) (pk : Packet) (m : Meta) (now : Nat) :
    getTagValue (createEphemeralRumorWith v keys pk m now).tags "sequence" = decReprS m.sequence := by
  rw [tags_createRumor]
  rw [getTagValue_cons_miss _ _ _ (by simp), getTagValue_cons_miss _ _ _ (by simp),
    getTagValue_cons_miss _ _ _ (by simp), getTagValue_cons_miss _ _ _ (by simp)]
  exact getTagValue_cons_hit _ _ _

theorem getTag_direction_createRumor (v : String) (keys : NostrKeys) (pk : Packet) (m : Meta) (now : Nat) :
    getTagValue (createEphemeralRumorWith v keys pk m now).tags "direction" = m.direction := by
  rw [tags_createRumor]
  rw [getTagValue_cons_miss _ _ _ (by simp), getTagValue_cons_miss _ _ _ (by simp),
    getTagValue_cons_miss _ _ _ (by simp), getTagValue_cons_miss _ _ _ (by simp),
    getTagValue_cons_miss _ _ _ (by simp)]
  exact getTagValue_cons_hit _ _ _

theorem getTag_host_createRumor (v : String) (keys : NostrKeys) (pk : Packet) (m : Meta) (now : Nat) :
    getTagValue (createEphemeralRumorWith v keys pk m now).tags "target_host" = m.targetHost := by
  rw [tags_createRumor]
  rw [getTagValue_cons_miss _ _ _ (by simp), getTagValue_cons_miss _ _ _ (by simp),
    getTagValue_cons_miss _ _ _ (by simp), getTagValue_cons_miss _ _ _ (by simp),
    getTagValue_cons_miss _ _ _ (by simp), getTagValue_cons_miss _ _ _ (by simp)]
  by_cases hH : m.targetHost = ""
  · rw [getTagValue_ifchunk_none _ (by simp [hH])]
    rw [getTagValue_ifchunk_miss _ _ _ _ _ (by simp),
      getTagValue_ifchunk_miss _ _ _ _ _ (by simp),
      getTagValue_if_single_miss _ _ _ _ (by simp)]
    exact hH.symm
  · exact getTagValue_ifchunk_self _ hH _ _ _

theorem getTag_port_createRumor (v : String) (keys : NostrKeys) (pk : Packet) (m : Meta) (now : Nat) :
    getTagValue (createEphemeralRumorWith v keys pk m now).tags "target_port" =
      (if m.targetPort > 0 then intReprS m.targetPort else "") := by
  rw [tags_createRumor]
  rw [getTagValue_cons_miss _ _ _ (by simp), getTagValue_cons_miss _ _ _ (by simp),
    getTagValue_cons_miss _ _ _ (by simp), getTagValue_cons_miss _ _ _ (by simp),
    getTagValue_cons_miss _ _ _ (by simp), getTagValue_cons_miss _ _ _ (by simp)]
  rw [getTagValue_ifchunk_miss _ _ _ _ _ (by simp)]
  by_cases hp : m.targetPort > 0
  · rw [getTagValue_ifchunk_self _ hp _ _ _, if_pos hp]
  · rw [getTagValue_ifchunk_none _ hp]
    rw [getTagValue_ifchunk_miss _ _ _ _ _ (by simp),
      getTagValue_if_single_miss _ _ _ _ (by simp), if_neg hp]

theorem getTag_addr_createRumor (v : String) (keys : NostrKeys) (pk : Packet) (m : Meta) (now : Nat) :
    getTagValue (createEphemeralRumorWith v keys pk m now).tags "client_addr" = m.clientAddr := by
  rw [tags_createRumor]
  rw [getTagValue_cons_miss _ _ _ (by simp), getTagValue_cons_miss _ _ _ (by simp),
    getTagValue_cons_miss _ _ _ (by simp), getTagValue_cons_miss _ _ _ (by simp),
    getTagValue_cons_miss _ _ _ (by simp), getTagValue_cons_miss _ _ _ (by simp)]
  rw [getTagValue_ifchunk_miss _ _ _ _ _ (by simp),
    getTagValue_ifchunk_miss _ _ _ _ _ (by simp)]
  by_cases hA : m.clientAddr = ""
  · rw [getTagValue_ifchunk_none _ (by simp [hA])]
    rw [getTagValue_if_single_miss _ _ _ _ (by simp)]
    exact hA.symm
  · exact getTagValue_ifchunk_self _ hA _ _ _

theorem getTag_error_createRumor (v : String) (keys : NostrKeys) (pk : Packet) (m : Meta) (now : Nat) :
    getTagValue (createEphemeralRumorWith v keys pk m now).tags "error" = m.errorMsg := by
  rw [tags_createRumor]
  rw [getTagValue_cons_miss _ _ _ (by simp), getTagValue_cons_miss _ _ _ (by simp),
    getTagValue_cons_miss _ _ _ (by simp), getTagValue_cons_miss _ _ _ (by simp),
    getTagValue_cons_miss _ _ _ (by simp), getTagValue_cons_miss _ _ _ (by simp)]
  rw [getTagValue_ifchunk_miss _ _ _ _ _ (by simp),
    getTagValue_ifchunk_miss _ _ _ _ _ (by simp),
    getTagValue_ifchunk_miss _ _ _ _ _ (by simp)]
  by_cases hE : m.errorMsg = ""
  · rw [getTagValue_if_single_none _ (by simp [hE])]
    exact hE.symm
  · exact getTagValue_if_single_self _ hE _ _

theorem checkVersion_createRumor (v : String) (keys : NostrKeys) (pk : Packet) (m : Meta) (now : Nat) :
    CheckVersionCompatibility (createEphemeralRumorWith v keys pk m now) =
      (isVersionCompatible v, v) := by
  unfold CheckVersionCompatibility
  rw [tags_createRumor]
  rw [List.find?_cons_of_neg _ (by simp)]
  rw [List.find?_cons_of_pos _ (by simp)]
  by_cases hvc : isVersionCompatible v <;> simp [hvc]

theorem parse_createRumor (v : String) (keys : NostrKeys) (P : List Nat) (m : Meta) (now : Nat)
    (hv : isVersionCompatible v = true)
    (hP : ∀ b ∈ P, b < 256)
    (hseq : m.sequence < 2 ^ 64)
    (hport0 : 0 ≤ m.targetPort) (hport1 : m.targetPort < 2 ^ 63) :
    parseRumorAsPacket (createEphemeralRumorWith v keys ⟨P⟩ m now) =
      some { packet := ⟨P⟩
             type := m.packetType
             sessionID := m.sessionID
             sequence := m.sequence
             direction := m.direction
             targetHost := m.targetHost
             targetPort := m.targetPort
             clientAddr := m.clientAddr
             errorMsg := m.errorMsg
             clientPubkey := keys.publicKey } := by
  unfold parseRumorAsPacket
  rw [show (createEphemeralRumorWith v keys ⟨P⟩ m now).kind = 20547 from rfl]
  rw [if_neg (show ¬((20547 : Nat) ≠ 20547) by simp)]
  rw [checkVersion_createRumor]
  rw [if_neg (by simp [hv])]
  rw [show (createEphemeralRumorWith v keys ⟨P⟩ m now).content
    = NContent.str (if (P : List Nat).length > 0 then b64EncodeS P else "") from rfl]
  have hdata : (if (if (P : List Nat).length > 0 then b64EncodeS P else "") = ""
      then some ([] : List Nat)
      else b64DecodeS (if (P : List Nat).length > 0 then b64EncodeS P else "")) = some P := by
    cases P with
    | nil => simp
    | cons b t =>
      rw [if_pos (show ((b :: t : List Nat)).length > 0 by simp)]
      rw [if_neg (b64EncodeS_ne_empty b t)]
      exact b64DecodeS_b64EncodeS _ hP
  rw [show (createEphemeralRumorWith v keys ⟨P⟩ m now).pubkey = keys.publicKey from rfl]
  simp only [hdata, getTag_type_createRumor, getTag_session_createRumor,
    getTag_sequence_createRumor, getTag_direction_createRumor, getTag_host_createRumor,
    getTag_port_createRumor, getTag_addr_createRumor, getTag_error_createRumor]
  rw [if_neg (decReprS_ne_empty m.sequence)]
  rw [decParseS_decReprS _ hseq]
  rcases (show m.targetPort = 0 ∨ 0 < m.targetPort by omega) with hp | hp
  · rw [if_neg (show ¬(m.targetPort > 0) by omega)]
    rw [if_pos rfl]
    simp [hp]
  · rw [if_pos hp]
    rw [if_neg (intReprS_ne_empty _ hp)]
    rw [decParseIntS_intReprS _ hp hport1]

theorem isVersionCompatible_Version : isVersionCompatible Version = true := by decide

theorem convKeysUpTo_length (t : Nat) (pool : List KeyPair) (n : Nat) :
    (convKeysUpTo t pool n).length = n := by
  induction n with
  | zero => rfl
  | succ k ih =>
    unfold convKeysUpTo
    simp [ih]

theorem convKeysUpTo_getD (t : Nat) (pool : List KeyPair) (n i : Nat) (h : i < n) :
    (convKeysUpTo t pool n).getD i 0
      = genConversationKey t ((pool.getD i ⟨0, 0⟩).privateKey) := by
  induction n with
  | zero => omega
  | succ k ih =>
    unfold convKeysUpTo
    rcases (show i < k ∨ i = k by omega) with hik | hik
    · rw [List.getD_eq_getElem?_getD,
        List.getElem?_append_left (by rw [convKeysUpTo_length]; omega)]
      rw [← List.getD_eq_getElem?_getD]
      exact ih hik
    · subst hik
      rw [List.getD_eq_getElem?_getD,
        List.getElem?_append_right (by rw [convKeysUpTo_length])]
      simp [convKeysUpTo_length]

theorem createGiftWrap_spec (km : KeyManager) (rumor : NEvent) (t : Nat) (now : Nat)
    (hinit : km.initializedTargets.contains t = false)
    (hpool : 0 < km.ephemeralKeyPool.length) :
    (createEphemeralGiftWrap km rumor t now).1 =
      signEvent (km.ephemeralKeyPool.getD (poolIdx km) ⟨0, 0⟩).privateKey
        (NEvent.mk 21059 now
          (nip44Encrypt rumor
            (genConversationKey t
              ((km.ephemeralKeyPool.getD (poolIdx km) ⟨0, 0⟩).privateKey)))
          [["p", decReprS t]]
          (km.ephemeralKeyPool.getD (poolIdx km) ⟨0, 0⟩).publicKey none) := by
  unfold createEphemeralGiftWrap ensureTargetInitialized initializeTargetCache
  rw [hinit]
  simp only [Bool.false_eq_true, if_false]
  unfold getNextEphemeralKey getConversationKey keyPoolSize poolIdx
  simp only [List.lookup_cons_self, Option.getD_some]
  rw [convKeysUpTo_getD _ _ _ _ (Nat.mod_lt _ hpool)]
  rfl

theorem unwrap_signed_wrap (kmB : KeyManager) (privB otp : Nat) (rumor : NEvent) (now : Nat)
    (hB : kmB.keys = some ⟨privB, getPublicKey privB⟩) :
    UnwrapEphemeralGiftWrap kmB
      (signEvent otp (NEvent.mk 21059 now
        (nip44Encrypt rumor (genConversationKey (getPublicKey privB) otp))
        [["p", decReprS (getPublicKey privB)]] (getPublicKey otp) none))
      = parseRumorAsPacket rumor := by
  unfold UnwrapEphemeralGiftWrap
  rw [hB]
  show (match nip44Decrypt
      (signEvent otp (NEvent.mk 21059 now
        (nip44Encrypt rumor (genConversationKey (getPublicKey privB) otp))
        [["p", decReprS (getPublicKey privB)]] (getPublicKey otp) none)).content
      (genConversationKey
        (signEvent otp (NEvent.mk 21059 now
          (nip44Encrypt rumor (genConversationKey (getPublicKey privB) otp))
          [["p", decReprS (getPublicKey privB)]] (getPublicKey otp) none)).pubkey
        privB) with
    | none => none
    | some r => parseRumorAsPacket r) = parseRumorAsPacket rumor
  rw [show (signEvent otp (NEvent.mk 21059 now
      (nip44Encrypt rumor (genConversationKey (getPublicKey privB) otp))
      [["p", decReprS (getPublicKey privB)]] (getPublicKey otp) none)).pubkey
      = getPublicKey otp from rfl]
  rw [show (signEvent otp (NEvent.mk 21059 now
      (nip44Encrypt rumor (genConversationKey (getPublicKey privB) otp))
      [["p", decReprS (getPublicKey privB)]] (getPublicKey otp) none)).content
      = nip44Encrypt rumor (genConversationKey (getPublicKey privB) otp) from rfl]
  show (match (if genConversationKey (getPublicKey privB) otp
        = genConversationKey (getPublicKey otp) privB then some rumor else none) with
    | none => none
    | some r => parseRumorAsPacket r) = parseRumorAsPacket rumor
  rw [if_pos (genConversationKey_symm otp privB)]

theorem unwrap_create
    (kmA kmB : KeyManager) (keysA : NostrKeys) (privB : Nat)
    (P : List Nat) (m : Meta) (now : Nat)
    (hA : kmA.keys = some keysA)
    (hB : kmB.keys = some ⟨privB, getPublicKey privB⟩)
    (hwf : ∀ kp ∈ kmA.ephemeralKeyPool, kp.publicKey = getPublicKey kp.privateKey)
    (hpool : 0 < kmA.ephemeralKeyPool.length)
    (hinit : kmA.initializedTargets.contains (getPublicKey privB) = false)
    (hP : ∀ b ∈ P, b < 256)
    (hseq : m.sequence < 2 ^ 64)
    (hport0 : 0 ≤ m.targetPort) (hport1 : m.targetPort < 2 ^ 63) :
    (CreateEphemeralGiftWrappedEvent kmA ⟨P⟩ (getPublicKey privB) m now).map
        (fun pr => UnwrapEphemeralGiftWrap kmB pr.1)
      = some (some
        { packet := ⟨P⟩
          type := m.packetType
          sessionID := m.sessionID
          sequence := m.sequence
          direction := m.direction
          targetHost := m.targetHost
          targetPort := m.targetPort
          clientAddr := m.clientAddr
          errorMsg := m.errorMsg
          clientPubkey := keysA.publicKey }) := by
  unfold CreateEphemeralGiftWrappedEvent
  rw [hA]
  show some (UnwrapEphemeralGiftWrap kmB
      (createEphemeralGiftWrap kmA (createEphemeralRumor keysA ⟨P⟩ m now)
        (getPublicKey privB) now).1)
    = some (some
      { packet := ⟨P⟩
        type := m.packetType
        sessionID := m.sessionID
        sequence := m.sequence
        direction := m.direction
        targetHost := m.targetHost
        targetPort := m.targetPort
        clientAddr := m.clientAddr
        errorMsg := m.errorMsg
        clientPubkey := keysA.publicKey })
  congr 1
  rw [createGiftWrap_spec _ _ _ _ hinit hpool]
  have hkp : kmA.ephemeralKeyPool.getD (poolIdx kmA) ⟨0, 0⟩ ∈ kmA.ephemeralKeyPool := by
    have hlt : poolIdx kmA < kmA.ephemeralKeyPool.length := Nat.mod_lt _ hpool
    rw [List.getD_eq_getElem?_getD, List.getElem?_eq_getElem hlt]
    exact List.getElem_mem hlt
  rw [hwf _ hkp]
  rw [unwrap_signed_wrap kmB privB _ _ now hB]
  exact parse_createRumor Version keysA P m now isVersionCompatible_Version hP hseq hport0 hport1

/-! ## Claim C1 -/

/-- C1: for every pair of identity keypairs (A, B), every packet payload P
(including the empty payload), and every envelope metadata M, unwrapping
with B's private key the gift wrap produced by A for recipient B
(`CreateEphemeralGiftWrappedEvent` followed by `UnwrapEphemeralGiftWrap`)
yields a `ParsedPacket` whose payload bytes equal P, whose metadata fields
equal M, and whose source public key (`ClientPubkey`) equals A's identity
public key (not the ephemeral gift-wrap public key). -/
theorem c1_envelope_roundtrip
    (privA privB : Nat) (pool : List KeyPair) (ctr : Nat) (P : List Nat) (m : Meta) (now : Nat)
    (hwf : ∀ kp ∈ pool, kp.publicKey = getPublicKey kp.privateKey)
    (hpool : 0 < pool.length)
    (hP : ∀ b ∈ P, b < 256)
    (hseq : m.sequence < 2 ^ 64)
    (hport0 : 0 ≤ m.targetPort) (hport1 : m.targetPort < 2 ^ 63) :
    (CreateEphemeralGiftWrappedEvent
        ⟨some ⟨privA, getPublicKey privA⟩, pool, ctr, [], []⟩
        ⟨P⟩ (getPublicKey privB) m now).map
      (fun pr => UnwrapEphemeralGiftWrap
        ⟨some ⟨privB, getPublicKey privB⟩, [], 0, [], []⟩ pr.1)
      = some (some
        { packet := ⟨P⟩
          type := m.packetType
          sessionID := m.sessionID
          sequence := m.sequence
          direction := m.direction
          targetHost := m.targetHost
          targetPort := m.targetPort
          clientAddr := m.clientAddr
          errorMsg := m.errorMsg
          clientPubkey := getPublicKey privA }) :=
  unwrap_create _ _ ⟨privA, getPublicKey privA⟩ privB P m now rfl rfl
    hwf hpool rfl hP hseq hport0 hport1

/-- Witness for C1 at a concrete instance: identity keys 1 and 2, a
one-entry ephemeral pool, a two-byte payload and full metadata. -/
theorem c1_envelope_roundtrip_witness :
    (∀ kp ∈ [(⟨3, getPublicKey 3⟩ : KeyPair)], kp.publicKey = getPublicKey kp.privateKey) ∧
    0 < [(⟨3, getPublicKey 3⟩ : KeyPair)].length ∧
    (∀ b ∈ [7, 200], b < 256) ∧ (5 : Nat) < 2 ^ 64 ∧
    (0 : Int) ≤ 80 ∧ (80 : Int) < 2 ^ 63 ∧
    (CreateEphemeralGiftWrappedEvent
        ⟨some ⟨1, getPublicKey 1⟩, [⟨3, getPublicKey 3⟩], 0, [], []⟩
        ⟨[7, 200]⟩ (getPublicKey 2)
        ⟨"data", "s1", 5, "server_to_client", "h", 80, "addr", ""⟩ 0).map
      (fun pr => UnwrapEphemeralGiftWrap ⟨some ⟨2, getPublicKey 2⟩, [], 0, [], []⟩ pr.1)
      = some (some
        { packet := ⟨[7, 200]⟩
          type := "data"
          sessionID := "s1"
          sequence := 5
          direction := "server_to_client"
          targetHost := "h"
          targetPort := 80
          clientAddr := "addr"
          errorMsg := ""
          clientPubkey := getPublicKey 1 }) :=
  ⟨by decide, by decide, by decide, by decide, by decide, by decide,
    c1_envelope_roundtrip 1 2 [⟨3, getPublicKey 3⟩] 0 [7, 200]
      ⟨"data", "s1", 5, "server_to_client", "h", 80, "addr", ""⟩ 0
      (by decide) (by decide) (by decide) (by decide) (by decide) (by decide)⟩

/-! ## Claim C3 (corrected) -/

/-- C3 counterexample: the current `UnwrapEphemeralGiftWrap` does NOT
accept the sealed form.  A gift wrap addressed to this endpoint whose
decrypted content is a kind-20013 seal (built exactly as the legacy
sender builds it, signature valid, rumor inside encrypted under the
sender-to-recipient key) fails to unwrap instead of returning the rumor's
packet. -/
theorem c3_seal_rejected_counterexample :
    UnwrapEphemeralGiftWrap ⟨some ⟨2, getPublicKey 2⟩, [], 0, [], []⟩
      (legacyCreateEphemeralGiftWrap
        (createEphemeralSeal ⟨1, getPublicKey 1⟩
          (createEphemeralRumor ⟨1, getPublicKey 1⟩ ⟨[65]⟩
            ⟨"data", "s", 0, "server_to_client", "", 0, "", ""⟩ 0)
          (getPublicKey 2) 0)
        (getPublicKey 2) 3 0) = none := by decide

/-- C3 amended: the current `UnwrapEphemeralGiftWrap` accepts only the
direct-to-rumor gift wrap form: (a) a gift wrap carrying the encrypted
rumor directly unwraps to the parsed rumor; (b) a gift wrap whose
decrypted content is a kind-20013 seal is rejected with a bad-kind error;
(c) conversely, the legacy revision's unwrap rejects the direct form,
because the unsigned rumor fails its seal-signature check. -/
theorem c3_unwrap_direct_only
    (kmB : KeyManager) (privB : Nat)
    (hB : kmB.keys = some ⟨privB, getPublicKey privB⟩) :
    (∀ (otp now : Nat) (rumor : NEvent),
      UnwrapEphemeralGiftWrap kmB
        (signEvent otp (NEvent.mk 21059 now
          (nip44Encrypt rumor (genConversationKey (getPublicKey privB) otp))
          [["p", decReprS (getPublicKey privB)]] (getPublicKey otp) none))
        = parseRumorAsPacket rumor) ∧
    (∀ (otp now : Nat) (sealEv : NEvent), sealEv.kind = 20013 →
      UnwrapEphemeralGiftWrap kmB
        (legacyCreateEphemeralGiftWrap sealEv (getPublicKey privB) otp now) = none) ∧
    (∀ (otp now : Nat) (rumor : NEvent), rumor.sig = none →
      legacyUnwrapEphemeralGiftWrap kmB
        (signEvent otp (NEvent.mk 21059 now
          (nip44Encrypt rumor (genConversationKey (getPublicKey privB) otp))
          [["p", decReprS (getPublicKey privB)]] (getPublicKey otp) none)) = none) := by
  refine ⟨fun otp now rumor => unwrap_signed_wrap kmB privB otp rumor now hB, ?_, ?_⟩
  · intro otp now sealEv hkind
    unfold legacyCreateEphemeralGiftWrap UnwrapEphemeralGiftWrap
    rw [hB]
    show (match (if genConversationKey (getPublicKey privB) otp
        = genConversationKey (getPublicKey otp) privB then some sealEv else none) with
      | none => none
      | some r => parseRumorAsPacket r) = none
    rw [if_pos (genConversationKey_symm otp privB)]
    show parseRumorAsPacket sealEv = none
    unfold parseRumorAsPacket
    rw [hkind]
    rw [if_pos (by omega)]
  · intro otp now rumor hsig
    unfold legacyUnwrapEphemeralGiftWrap
    rw [hB]
    show (match (if genConversationKey (getPublicKey privB) otp
        = genConversationKey (getPublicKey otp) privB then some rumor else none) with
      | none => none
      | some sealEv =>
        if ¬ checkSignature sealEv then none
        else match nip44Decrypt sealEv.content (genConversationKey sealEv.pubkey privB) with
          | none => none
          | some r => legacyParseRumorAsPacket r) = none
    rw [if_pos (genConversationKey_symm otp privB)]
    show (if ¬ checkSignature rumor then none
      else match nip44Decrypt rumor.content (genConversationKey rumor.pubkey privB) with
        | none => none
        | some r => legacyParseRumorAsPacket r) = none
    rw [if_pos (by simp [checkSignature, hsig])]

/-- Witness for C3's amended theorem at a concrete endpoint key. -/
theorem c3_unwrap_direct_only_witness :
    ((⟨some ⟨2, getPublicKey 2⟩, [], 0, [], []⟩ : KeyManager).keys
        = some ⟨2, getPublicKey 2⟩) ∧
    ((NEvent.mk 20013 0 (.str "x") [] 3 none).kind = 20013 ∧
     UnwrapEphemeralGiftWrap ⟨some ⟨2, getPublicKey 2⟩, [], 0, [], []⟩
       (legacyCreateEphemeralGiftWrap (NEvent.mk 20013 0 (.str "x") [] 3 none)
         (getPublicKey 2) 7 0) = none) := by
  refine ⟨rfl, rfl, ?_⟩
  exact (c3_unwrap_direct_only ⟨some ⟨2, getPublicKey 2⟩, [], 0, [], []⟩ 2 rfl).2.1
    7 0 (NEvent.mk 20013 0 (.str "x") [] 3 none) rfl

/-! ## Claim C4 -/

/-- C4: the conversation-key cache is indexed in lock-step with the
ephemeral-key pool (entry `i` is the NIP-44 conversation key of the
recipient public key and `ephemeralKeyPool[i].PrivateKey`);
`getNextEphemeralKey` increments the rotation counter modulo `2 ^ 64` and
returns the keypair together with that keypair's own pool index (counter
mod N with N = 5000); and `createEphemeralGiftWrap` encrypts under the
cached key at exactly the index of the ephemeral keypair whose public key
it places in the gift wrap's `pubkey` field, so the recipient's
Diffie–Hellman with the gift-wrap pubkey re-derives the decryption key. -/
theorem c4_pool_cache_lockstep
    (km : KeyManager) (privB : Nat) (rumor : NEvent) (now : Nat)
    (h5000 : km.ephemeralKeyPool.length = 5000)
    (hwf : ∀ kp ∈ km.ephemeralKeyPool, kp.publicKey = getPublicKey kp.privateKey)
    (hinit : km.initializedTargets.contains (getPublicKey privB) = false) :
    (∀ i, i < 5000 →
      (((initializeTargetCache km (getPublicKey privB)).conversationKeyCache.lookup
          (getPublicKey privB)).getD []).getD i 0
        = genConversationKey (getPublicKey privB)
            ((km.ephemeralKeyPool.getD i ⟨0, 0⟩).privateKey)) ∧
    ((getNextEphemeralKey km).2.1 = ((km.keyPoolIndex + 1) % 2 ^ 64) % 5000 ∧
     (getNextEphemeralKey km).1
        = km.ephemeralKeyPool.getD (((km.keyPoolIndex + 1) % 2 ^ 64) % 5000) ⟨0, 0⟩ ∧
     (getNextEphemeralKey km).2.2.keyPoolIndex = (km.keyPoolIndex + 1) % 2 ^ 64) ∧
    ((createEphemeralGiftWrap km rumor (getPublicKey privB) now).1.pubkey
        = (km.ephemeralKeyPool.getD (poolIdx km) ⟨0, 0⟩).publicKey ∧
     (createEphemeralGiftWrap km rumor (getPublicKey privB) now).1.content
        = nip44Encrypt rumor (genConversationKey (getPublicKey privB)
            ((km.ephemeralKeyPool.getD (poolIdx km) ⟨0, 0⟩).privateKey)) ∧
     nip44Decrypt (createEphemeralGiftWrap km rumor (getPublicKey privB) now).1.content
        (genConversationKey
          ((createEphemeralGiftWrap km rumor (getPublicKey privB) now).1.pubkey) privB)
        = some rumor) := by
  have hpool : 0 < km.ephemeralKeyPool.length := by omega
  have hkplt : poolIdx km < km.ephemeralKeyPool.length := Nat.mod_lt _ hpool
  have hkp : km.ephemeralKeyPool.getD (poolIdx km) ⟨0, 0⟩ ∈ km.ephemeralKeyPool := by
    rw [List.getD_eq_getElem?_getD, List.getElem?_eq_getElem hkplt]
    exact List.getElem_mem hkplt
  refine ⟨?_, ?_, ?_⟩
  · intro i hi
    unfold initializeTargetCache
    rw [hinit]
    simp only [Bool.false_eq_true, if_false, List.lookup_cons_self, Option.getD_some]
    exact convKeysUpTo_getD _ _ _ _ (by unfold keyPoolSize; omega)
  · unfold getNextEphemeralKey keyPoolSize
    rw [h5000]
    exact ⟨rfl, rfl, rfl⟩
  · rw [createGiftWrap_spec _ _ _ _ hinit hpool]
    refine ⟨by rw [hwf _ hkp]; rfl, rfl, ?_⟩
    show (if genConversationKey (getPublicKey privB)
        (km.ephemeralKeyPool.getD (poolIdx km) ⟨0, 0⟩).privateKey
      = genConversationKey
        (getPublicKey (km.ephemeralKeyPool.getD (poolIdx km) ⟨0, 0⟩).privateKey) privB
      then some rumor else none) = some rumor
    rw [if_pos (genConversationKey_symm _ privB)]

/-- Witness for C4 with a pool of exactly 5000 keypairs. -/
theorem c4_pool_cache_lockstep_witness :
    ((List.replicate 5000 (⟨3, getPublicKey 3⟩ : KeyPair)).length = 5000) ∧
    (∀ kp ∈ List.replicate 5000 (⟨3, getPublicKey 3⟩ : KeyPair),
      kp.publicKey = getPublicKey kp.privateKey) ∧
    (([] : List Nat).contains (getPublicKey 2) = false) ∧
    ((getNextEphemeralKey
        ⟨some ⟨1, getPublicKey 1⟩, List.replicate 5000 ⟨3, getPublicKey 3⟩, 0, [], []⟩).2.1
      = ((0 + 1) % 2 ^ 64) % 5000) := by
  refine ⟨by rw [List.length_replicate], ?_, rfl, ?_⟩
  · intro kp hkp
    rw [List.eq_of_mem_replicate hkp]
  · exact (c4_pool_cache_lockstep
      ⟨some ⟨1, getPublicKey 1⟩, List.replicate 5000 ⟨3, getPublicKey 3⟩, 0, [], []⟩ 2
      (NEvent.mk 20547 0 (.str "") [] 3 none) 0
      (by rw [List.length_replicate])
      (fun kp hkp => by rw [List.eq_of_mem_replicate hkp])
      rfl).2.1.1

/-! ## Claim C7 -/

/-- Helper: parsing a kind-20547 rumor that carries no version tag (legacy
form, five metadata tags only) succeeds. -/
theorem parse_rumor_no_version (keys : NostrKeys) (P : List Nat) (m : Meta) (now : Nat)
    (hP : ∀ b ∈ P, b < 256) (hseq : m.sequence < 2 ^ 64) :
    parseRumorAsPacket (NEvent.mk 20547 now
      (.str (if (P : List Nat).length > 0 then b64EncodeS P else ""))
      [["proxy", "tcp"], ["type", m.packetType], ["session", m.sessionID],
       ["sequence", decReprS m.sequence], ["direction", m.direction]]
      keys.publicKey none)
    = some { packet := ⟨P⟩
             type := m.packetType
             sessionID := m.sessionID
             sequence := m.sequence
             direction := m.direction
             targetHost := ""
             targetPort := 0
             clientAddr := ""
             errorMsg := ""
             clientPubkey := keys.publicKey } := by
  unfold parseRumorAsPacket
  simp only [NEvent.kind, NEvent.tags, NEvent.content, NEvent.pubkey]
  rw [if_neg (show ¬((20547 : Nat) ≠ 20547) by simp)]
  rw [show CheckVersionCompatibility (NEvent.mk 20547 now
      (.str (if (P : List Nat).length > 0 then b64EncodeS P else ""))
      [["proxy", "tcp"], ["type", m.packetType], ["session", m.sessionID],
       ["sequence", decReprS m.sequence], ["direction", m.direction]]
      keys.publicKey none) = (true, "1.x (no version tag)") from by
    unfold CheckVersionCompatibility
    simp only [NEvent.tags]
    rw [List.find?_cons_of_neg _ (by simp), List.find?_cons_of_neg _ (by simp),
      List.find?_cons_of_neg _ (by simp), List.find?_cons_of_neg _ (by simp),
      List.find?_cons_of_neg _ (by simp)]
    rfl]
  rw [if_neg (by simp)]
  have hdata : (if (if (P : List Nat).length > 0 then b64EncodeS P else "") = ""
      then some ([] : List Nat)
      else b64DecodeS (if (P : List Nat).length > 0 then b64EncodeS P else "")) = some P := by
    cases P with
    | nil => simp
    | cons b t =>
      rw [if_pos (show ((b :: t : List Nat)).length > 0 by simp)]
      rw [if_neg (b64EncodeS_ne_empty b t)]
      exact b64DecodeS_b64EncodeS _ hP
  rw [hdata]
  rw [getTagValue_cons_miss _ _ _ (by simp), getTagValue_cons_miss _ _ _ (by simp),
    getTagValue_cons_miss _ _ _ (by simp), getTagValue_cons_hit]
  rw [if_neg (decReprS_ne_empty m.sequence)]
  rw [decParseS_decReprS _ hseq]
  rw [show getTagValue [["proxy", "tcp"], ["type", m.packetType], ["session", m.sessionID],
      ["sequence", decReprS m.sequence], ["direction", m.direction]] "target_port" = "" from by
    rw [getTagValue_cons_miss _ _ _ (by simp), getTagValue_cons_miss _ _ _ (by simp),
      getTagValue_cons_miss _ _ _ (by simp), getTagValue_cons_miss _ _ _ (by simp),
      getTagValue_cons_miss _ _ _ (by simp)]
    rfl]
  rw [if_pos rfl]
  rw [getTagValue_cons_miss _ _ _ (by simp), getTagValue_cons_hit]
  rw [show getTagValue [["proxy", "tcp"], ["type", m.packetType], ["session", m.sessionID],
      ["sequence", decReprS m.sequence], ["direction", m.direction]] "session" = m.sessionID from by
    rw [getTagValue_cons_miss _ _ _ (by simp), getTagValue_cons_miss _ _ _ (by simp),
      getTagValue_cons_hit]]
  rw [show getTagValue [["proxy", "tcp"], ["type", m.packetType], ["session", m.sessionID],
      ["sequence", decReprS m.sequence], ["direction", m.direction]] "direction" = m.direction from by
    rw [getTagValue_cons_miss _ _ _ (by simp), getTagValue_cons_miss _ _ _ (by simp),
      getTagValue_cons_miss _ _ _ (by simp), getTagValue_cons_miss _ _ _ (by simp),
      getTagValue_cons_hit]]
  rw [show getTagValue [["proxy", "tcp"], ["type", m.packetType], ["session", m.sessionID],
      ["sequence", decReprS m.sequence], ["direction", m.direction]] "target_host" = "" from by
    rw [getTagValue_cons_miss _ _ _ (by simp), getTagValue_cons_miss _ _ _ (by simp),
      getTagValue_cons_miss _ _ _ (by simp), getTagValue_cons_miss _ _ _ (by simp),
      getTagValue_cons_miss _ _ _ (by simp)]
    rfl]
  rw [show getTagValue [["proxy", "tcp"], ["type", m.packetType], ["session", m.sessionID],
      ["sequence", decReprS m.sequence], ["direction", m.direction]] "client_addr" = "" from by
    rw [getTagValue_cons_miss _ _ _ (by simp), getTagValue_cons_miss _ _ _ (by simp),
      getTagValue_cons_miss _ _ _ (by simp), getTagValue_cons_miss _ _ _ (by simp),
      getTagValue_cons_miss _ _ _ (by simp)]
    rfl]
  rw [show getTagValue [["proxy", "tcp"], ["type", m.packetType], ["session", m.sessionID],
      ["sequence", decReprS m.sequence], ["direction", m.direction]] "error" = "" from by
    rw [getTagValue_cons_miss _ _ _ (by simp), getTagValue_cons_miss _ _ _ (by simp),
      getTagValue_cons_miss _ _ _ (by simp), getTagValue_cons_miss _ _ _ (by simp),
      getTagValue_cons_miss _ _ _ (by simp)]
    rfl]

/-- C7: `parseRumorAsPacket` accepts a rumor whose version tag value
satisfies the family predicate (`isVersionCompatible`: the value contains
the substring "2.0." or "v2.0."), accepts a rumor carrying no version tag
at all (legacy-permissive), and fails for every version tag value outside
that family, returning no packet. -/
theorem c7_version_gating
    (v : String) (keys : NostrKeys) (P : List Nat) (m : Meta) (now : Nat)
    (hP : ∀ b ∈ P, b < 256) (hseq : m.sequence < 2 ^ 64)
    (hport0 : 0 ≤ m.targetPort) (hport1 : m.targetPort < 2 ^ 63) :
    (isVersionCompatible v = true →
      parseRumorAsPacket (createEphemeralRumorWith v keys ⟨P⟩ m now)
        = some { packet := ⟨P⟩
                 type := m.packetType
                 sessionID := m.sessionID
                 sequence := m.sequence
                 direction := m.direction
                 targetHost := m.targetHost
                 targetPort := m.targetPort
                 clientAddr := m.clientAddr
                 errorMsg := m.errorMsg
                 clientPubkey := keys.publicKey }) ∧
    (isVersionCompatible v = false →
      parseRumorAsPacket (createEphemeralRumorWith v keys ⟨P⟩ m now) = none) ∧
    (parseRumorAsPacket (NEvent.mk 20547 now
        (.str (if (P : List Nat).length > 0 then b64EncodeS P else ""))
        [["proxy", "tcp"], ["type", m.packetType], ["session", m.sessionID],
         ["sequence", decReprS m.sequence], ["direction", m.direction]]
        keys.publicKey none)).isSome = true := by
  refine ⟨?_, ?_, ?_⟩
  · intro hv
    exact parse_createRumor v keys P m now hv hP hseq hport0 hport1
  · intro hv
    unfold parseRumorAsPacket
    rw [show (createEphemeralRumorWith v keys ⟨P⟩ m now).kind = 20547 from rfl]
    rw [if_neg (show ¬((20547 : Nat) ≠ 20547) by simp)]
    rw [checkVersion_createRumor]
    rw [if_pos (by simp [hv])]
  · rw [parse_rumor_no_version keys P m now hP hseq]
    rfl

/-- Witness for C7 at the incompatible version "v1.0.0" (and, through the
same conjunction, the missing-version case). -/
theorem c7_version_gating_witness :
    (∀ b ∈ ([] : List Nat), b < 256) ∧ (0 : Nat) < 2 ^ 64 ∧
    (0 : Int) ≤ 0 ∧ (0 : Int) < 2 ^ 63 ∧
    (isVersionCompatible "v1.0.0" = false →
      parseRumorAsPacket (createEphemeralRumorWith "v1.0.0" ⟨1, getPublicKey 1⟩
        ⟨[]⟩ ⟨"data", "s", 0, "client_to_server", "", 0, "", ""⟩ 0) = none) := by
  refine ⟨by decide, by decide, by decide, by decide, ?_⟩
  exact (c7_version_gating "v1.0.0" ⟨1, getPublicKey 1⟩ []
    ⟨"data", "s", 0, "client_to_server", "", 0, "", ""⟩ 0
    (by decide) (by decide) (by decide) (by decide)).2.1

/-! ## Claim C8 (corrected) -/

/-- C8 counterexample: `parseRumorAsPacket` does NOT validate the `proxy`
tag.  A kind-20547 rumor with a compatible version tag and no `proxy` tag
at all parses successfully instead of failing with a bad-proxy error. -/
theorem c8_no_proxy_check_counterexample :
    (parseRumorAsPacket (NEvent.mk 20547 0 (.str "")
      [["version", "v2.0.2"], ["type", "data"], ["session", "s"],
       ["sequence", "0"], ["direction", "client_to_server"]]
      3 none)).isSome = true := by decide

/-- C8 amended: parsing a decrypted rumor fails, returning an error and no
packet, in each of these cases: the kind is not 20547; the content is not
valid base64; the `sequence` tag value does not scan as a decimal `uint64`;
the `target_port` tag value does not scan as a decimal `int`.  (The
original claim's bad-proxy case is dropped: the parser never inspects the
`proxy` tag.) -/
theorem c8_parse_error_cases :
    (∀ rumor : NEvent, rumor.kind ≠ 20547 → parseRumorAsPacket rumor = none) ∧
    (∀ (rumor : NEvent) (s : String), rumor.kind = 20547 →
      (CheckVersionCompatibility rumor).1 = true →
      rumor.content = .str s → s ≠ "" → b64DecodeS s = none →
      parseRumorAsPacket rumor = none) ∧
    (∀ (rumor : NEvent) (s : String) (bs : List Nat), rumor.kind = 20547 →
      (CheckVersionCompatibility rumor).1 = true →
      rumor.content = .str s →
      (if s = "" then some [] else b64DecodeS s) = some bs →
      getTagValue rumor.tags "sequence" ≠ "" →
      decParseS (getTagValue rumor.tags "sequence") = none →
      parseRumorAsPacket rumor = none) ∧
    (∀ (rumor : NEvent) (s : String) (bs : List Nat) (q : Nat), rumor.kind = 20547 →
      (CheckVersionCompatibility rumor).1 = true →
      rumor.content = .str s →
      (if s = "" then some [] else b64DecodeS s) = some bs →
      (if getTagValue rumor.tags "sequence" = "" then some 0
        else decParseS (getTagValue rumor.tags "sequence")) = some q →
      getTagValue rumor.tags "target_port" ≠ "" →
      decParseIntS (getTagValue rumor.tags "target_port") = none →
      parseRumorAsPacket rumor = none) := by
  refine ⟨?_, ?_, ?_, ?_⟩
  · intro rumor hkind
    unfold parseRumorAsPacket
    rw [if_pos hkind]
  · intro rumor s hkind hver hcontent hs hdec
    unfold parseRumorAsPacket
    rw [hkind, if_neg (by simp), if_neg (by simp [hver]), hcontent]
    show (match (if s = "" then some [] else b64DecodeS s) with
      | none => (none : Option ParsedPacket)
      | some data => _) = none
    rw [if_neg hs, hdec]
  · intro rumor s bs hkind hver hcontent hdata hseqne hseqbad
    unfold parseRumorAsPacket
    rw [hkind, if_neg (by simp), if_neg (by simp [hver]), hcontent]
    show (match (if s = "" then some [] else b64DecodeS s) with
      | none => (none : Option ParsedPacket)
      | some data => _) = none
    rw [hdata]
    show (match (if getTagValue rumor.tags "sequence" = "" then some 0
        else decParseS (getTagValue rumor.tags "sequence")) with
      | none => (none : Option ParsedPacket)
      | some seq => _) = none
    rw [if_neg hseqne, hseqbad]
  · intro rumor s bs q hkind hver hcontent hdata hseq hportne hportbad
    unfold parseRumorAsPacket
    rw [hkind, if_neg (by simp), if_neg (by simp [hver]), hcontent]
    show (match (if s = "" then some [] else b64DecodeS s) with
      | none => (none : Option ParsedPacket)
      | some data => _) = none
    rw [hdata]
    show (match (if getTagValue rumor.tags "sequence" = "" then some 0
        else decParseS (getTagValue rumor.tags "sequence")) with
      | none => (none : Option ParsedPacket)
      | some seq => _) = none
    rw [hseq]
    show (match (if getTagValue rumor.tags "target_port" = "" then some 0
        else decParseIntS (getTagValue rumor.tags "target_port")) with
      | none => (none : Option ParsedPacket)
      | some port => _) = none
    rw [if_neg hportne, hportbad]

/-- Witness for C8's amended theorem: a wrong-kind rumor, an invalid
base64 content, a non-numeric sequence tag and a non-numeric port tag,
each rejected. -/
theorem c8_parse_error_cases_witness :
    ((NEvent.mk 9999 0 (.str "") [] 3 none).kind ≠ 20547 ∧
     parseRumorAsPacket (NEvent.mk 9999 0 (.str "") [] 3 none) = none) ∧
    (b64DecodeS "!!" = none ∧
     parseRumorAsPacket (NEvent.mk 20547 0 (.str "!!") [] 3 none) = none) ∧
    (decParseS "abc" = none ∧
     parseRumorAsPacket (NEvent.mk 20547 0 (.str "")
        [["sequence", "abc"]] 3 none) = none) ∧
    (decParseIntS "xy" = none ∧
     parseRumorAsPacket (NEvent.mk 20547 0 (.str "")
        [["target_port", "xy"]] 3 none) = none) := by
  refine ⟨⟨by decide, ?_⟩, ⟨by decide, ?_⟩, ⟨by decide, ?_⟩, ⟨by decide, ?_⟩⟩
  · exact c8_parse_error_cases.1 _ (by decide)
  · exact c8_parse_error_cases.2.1 _ "!!" rfl (by decide) rfl (by decide) (by decide)
  · exact c8_parse_error_cases.2.2.1 _ "" [] rfl (by decide) rfl (by decide)
      (by decide) (by decide)
  · exact c8_parse_error_cases.2.2.2 _ "" [] 0 rfl (by decide) rfl (by decide)
      (by decide) (by decide) (by decide)

/-! ## Claim C10 -/

/-- C10 (implicit): `parseRumorAsPacket` does not enforce the presence of
the required envelope tags: a kind-20547 rumor with a compatible (or
absent) version whose `sequence`, `type`, `session` and `direction` tags
are all missing parses successfully, yielding `Sequence = 0` and empty
strings for the missing fields; the sequence- and port-scanning error
branches run only when those tag values are present and non-empty. -/
theorem c10_missing_tags_parse (rumor : NEvent) (s : String) (bs : List Nat)
    (hkind : rumor.kind = 20547)
    (hver : (CheckVersionCompatibility rumor).1 = true)
    (hcontent : rumor.content = .str s)
    (hdata : (if s = "" then some [] else b64DecodeS s) = some bs)
    (hseqtag : getTagValue rumor.tags "sequence" = "")
    (htypetag : getTagValue rumor.tags "type" = "")
    (hsesstag : getTagValue rumor.tags "session" = "")
    (hdirtag : getTagValue rumor.tags "direction" = "")
    (hporttag : getTagValue rumor.tags "target_port" = "") :
    parseRumorAsPacket rumor
      = some { packet := ⟨bs⟩
               type := ""
               sessionID := ""
               sequence := 0
               direction := ""
               targetHost := getTagValue rumor.tags "target_host"
               targetPort := 0
               clientAddr := getTagValue rumor.tags "client_addr"
               errorMsg := getTagValue rumor.tags "error"
               clientPubkey := rumor.pubkey } := by
  unfold parseRumorAsPacket
  rw [hkind, if_neg (by simp), if_neg (by simp [hver]), hcontent]
  show (match (if s = "" then some [] else b64DecodeS s) with
    | none => (none : Option ParsedPacket)
    | some data => _) = _
  rw [hdata]
  show (match (if getTagValue rumor.tags "sequence" = "" then some 0
      else decParseS (getTagValue rumor.tags "sequence")) with
    | none => (none : Option ParsedPacket)
    | some seq => _) = _
  rw [hseqtag, if_pos rfl]
  show (match (if getTagValue rumor.tags "target_port" = "" then some 0
      else decParseIntS (getTagValue rumor.tags "target_port")) with
    | none => (none : Option ParsedPacket)
    | some port => _) = _
  rw [hporttag, if_pos rfl]
  rw [htypetag, hsesstag, hdirtag]

/-- Witness for C10: a bare kind-20547 rumor with no tags at all. -/
theorem c10_missing_tags_parse_witness :
    ((NEvent.mk 20547 0 (.str "") [] 3 none).kind = 20547 ∧
     (CheckVersionCompatibility (NEvent.mk 20547 0 (.str "") [] 3 none)).1 = true ∧
     getTagValue (NEvent.mk 20547 0 (.str "") [] 3 none).tags "sequence" = "") ∧
    parseRumorAsPacket (NEvent.mk 20547 0 (.str "") [] 3 none)
      = some { packet := ⟨[]⟩
               type := ""
               sessionID := ""
               sequence := 0
               direction := ""
               targetHost := ""
               targetPort := 0
               clientAddr := ""
               errorMsg := ""
               clientPubkey := 3 } := by
  refine ⟨⟨rfl, by decide, rfl⟩, ?_⟩
  exact c10_missing_tags_parse (NEvent.mk 20547 0 (.str "") [] 3 none) "" []
    rfl (by decide) rfl (by decide) rfl rfl rfl rfl rfl

/-! ## Claim C9 -/

theorem publishLoop_spec (results : List PublishResult) (sc : Nat) (errs : List String) :
    publishLoop results sc errs =
      (sc + (results.filter (fun r => r.error.isNone)).length,
       errs ++ results.filterMap (fun r => r.error.map (fun e => r.relayURL ++ ": " ++ e))) := by
  induction results generalizing sc errs with
  | nil => simp [publishLoop]
  | cons r rest ih =>
    cases hr : r.error with
    | some e =>
      simp only [publishLoop, hr, ih, List.filter_cons, List.filterMap_cons]
      simp [List.append_assoc]
    | none =>
      simp only [publishLoop, hr, ih, List.filter_cons, List.filterMap_cons]
      simp
      try omega

/-- C9: `PublishEvent` returns success if and only if at least one relay
acknowledged the event; when zero relays accept, it returns an error
carrying the accumulated per-relay error list; and `NewNostrRelayHandler`
fails exactly when none of the configured relay URLs could be connected
(individual connection failures are skipped). -/
theorem c9_relay_fanout :
    (∀ results : List PublishResult,
      (PublishEvent results = .ok () ↔ ∃ r ∈ results, r.error = none)) ∧
    (∀ results : List PublishResult, (∀ r ∈ results, r.error ≠ none) →
      PublishEvent results = .error (results.filterMap
        (fun r => r.error.map (fun e => r.relayURL ++ ": " ++ e)))) ∧
    (∀ relays : List (String × Bool),
      (NewNostrRelayHandler relays = none ↔ ∀ p ∈ relays, p.2 = false)) := by
  refine ⟨?_, ?_, ?_⟩
  · intro results
    unfold PublishEvent
    rw [publishLoop_spec]
    simp only [Nat.zero_add, List.nil_append]
    have hiff : (results.filter (fun r => r.error.isNone)).length = 0 ↔
        ¬ ∃ r ∈ results, r.error = none := by
      rw [List.length_eq_zero, List.filter_eq_nil_iff]
      simp [Option.isNone_iff_eq_none]
    by_cases hz : (results.filter (fun r => r.error.isNone)).length = 0
    · rw [if_pos hz]
      constructor
      · intro h
        exact absurd h (by simp)
      · intro hex
        exact absurd hex (hiff.mp hz)
    · rw [if_neg hz]
      constructor
      · intro _
        by_contra hno
        exact hz (hiff.mpr hno)
      · intro _
        rfl
  · intro results hall
    unfold PublishEvent
    rw [publishLoop_spec]
    simp only [Nat.zero_add, List.nil_append]
    rw [if_pos (by
      rw [List.length_eq_zero, List.filter_eq_nil_iff]
      intro r hr
      simp [Option.isNone_iff_eq_none, hall r hr])]
  · intro relays
    rw [show (NewNostrRelayHandler relays = none) ↔
        (relays.filter (fun r => r.2)).length = 0 from by
      unfold NewNostrRelayHandler
      by_cases hz : (relays.filter (fun r => r.2)).length = 0
      · rw [if_pos hz]
        simp [hz]
      · rw [if_neg hz]
        simp [hz]]
    rw [List.length_eq_zero, List.filter_eq_nil_iff]
    simp

/-- Witness for C9: one dead relay and one live relay publish succeeds; two
dead relays accumulate both errors; a two-relay pool with one connection
failure constructs, an all-failed pool does not. -/
theorem c9_relay_fanout_witness :
    (PublishEvent [⟨"wss://a", some "timeout"⟩, ⟨"wss://b", none⟩] = .ok () ↔
      ∃ r ∈ [(⟨"wss://a", some "timeout"⟩ : PublishResult), ⟨"wss://b", none⟩],
        r.error = none) ∧
    ((∀ r ∈ [(⟨"wss://a", some "timeout"⟩ : PublishResult), ⟨"wss://b", some "refused"⟩],
        r.error ≠ none) ∧
      PublishEvent [⟨"wss://a", some "timeout"⟩, ⟨"wss://b", some "refused"⟩]
        = .error ["wss://a" ++ ": " ++ "timeout", "wss://b" ++ ": " ++ "refused"]) ∧
    (NewNostrRelayHandler [("wss://a", false), ("wss://b", false)] = none ↔
      ∀ p ∈ [("wss://a", false), ("wss://b", false)], p.2 = false) := by
  refine ⟨c9_relay_fanout.1 _, ⟨by decide, ?_⟩, c9_relay_fanout.2.2 _⟩
  have h := c9_relay_fanout.2.1
    [⟨"wss://a", some "timeout"⟩, ⟨"wss://b", some "refused"⟩] (by decide)
  simpa using h

/-! ## Receive-loop infrastructure lemmas -/

theorem contains_eq_decide_mem (l : List Nat) (a : Nat) :
    l.contains a = decide (a ∈ l) := by
  induction l with
  | nil => simp
  | cons x t ih =>
    by_cases hx : x = a
    · simp [hx]
    · simp [List.contains_cons, ih, hx, Ne.symm hx]

theorem find?_filter_of_imp (p q : α → Bool) (l : List α)
    (h : ∀ x, p x = true → q x = true) :
    (l.filter q).find? p = l.find? p := by
  induction l with
  | nil => rfl
  | cons a t ih =>
    by_cases hq : q a = true
    · rw [List.filter_cons_of_pos hq]
      by_cases hp : p a = true
      · rw [List.find?_cons_of_pos _ hp, List.find?_cons_of_pos _ hp]
      · rw [List.find?_cons_of_neg _ (by simp [hp]),
          List.find?_cons_of_neg _ (by simp [hp]), ih]
    · rw [List.filter_cons_of_neg (by simp [hq]), ih,
        List.find?_cons_of_neg _ (by
          intro hpa
          exact hq (h a hpa))]

theorem pendLookup_insert (k j : Nat) (v : ParsedPacket) (m : List (Nat × ParsedPacket)) :
    pendLookup j (pendInsert k v m) = if j = k then some v else pendLookup j m := by
  unfold pendLookup pendInsert
  by_cases hjk : j = k
  · subst hjk
    rw [List.find?_cons_of_pos _ (by simp)]
    simp
  · rw [List.find?_cons_of_neg _ (by simp [Ne.symm hjk])]
    rw [if_neg hjk]
    congr 1
    exact find?_filter_of_imp _ _ m (fun x hx => by
      simp at hx
      simp [hx, hjk])

theorem pendLookup_erase (k j : Nat) (m : List (Nat × ParsedPacket)) :
    pendLookup j (pendErase k m) = if j = k then none else pendLookup j m := by
  unfold pendLookup pendErase
  by_cases hjk : j = k
  · subst hjk
    rw [if_pos rfl]
    rw [show (m.filter (fun p => ¬ p.1 == j)).find? (fun p => p.1 == j) = none from ?_]
    · rfl
    · rw [List.find?_eq_none]
      intro x hx
      have := List.of_mem_filter hx
      simp at this
      simp [this]
  · rw [if_neg hjk]
    congr 1
    exact find?_filter_of_imp _ _ m (fun x hx => by
      simp at hx
      simp [hx, hjk])

theorem pendErase_length_lt (pend : List (Nat × ParsedPacket)) (s : Nat)
    (pkt : ParsedPacket) (h : pendLookup s pend = some pkt) :
    (pendErase s pend).length < pend.length := by
  have hfind : ∃ p ∈ pend, (p.1 == s) = true := by
    unfold pendLookup at h
    cases hf : pend.find? (fun p => p.1 == s) with
    | none => rw [hf] at h; simp at h
    | some q =>
      refine ⟨q, List.mem_of_find?_eq_some hf, ?_⟩
      have h2 := List.find?_some hf
      simpa using h2
  unfold pendErase
  rw [List.length_filter_lt_length_iff_exists]
  obtain ⟨q, hq, hqeq⟩ := hfind
  exact ⟨q, hq, by simp [hqeq]⟩

theorem collectChainAux_congr : ∀ (f1 f2 : Nat) (pend : List (Nat × ParsedPacket)) (s : Nat),
    pend.length ≤ f1 → pend.length ≤ f2 →
    collectChainAux f1 pend s = collectChainAux f2 pend s := by
  intro f1
  induction f1 with
  | zero =>
    intro f2 pend s h1 h2
    have hnil : pend = [] := by
      cases pend with
      | nil => rfl
      | cons a t => simp at h1
    subst hnil
    cases f2 with
    | zero => rfl
    | succ k => rfl
  | succ k ih =>
    intro f2 pend s h1 h2
    cases f2 with
    | zero =>
      have hnil : pend = [] := by
        cases pend with
        | nil => rfl
        | cons a t => simp at h2
      subst hnil
      rfl
    | succ k2 =>
      show collectChainAux (k + 1) pend s = collectChainAux (k2 + 1) pend s
      unfold collectChainAux
      cases hl : pendLookup s pend with
      | none => rfl
      | some pkt =>
        have hlt := pendErase_length_lt pend s pkt hl
        rw [ih k2 (pendErase s pend) (s + 1) (by omega) (by omega)]

theorem collectChain_eq_none (pend : List (Nat × ParsedPacket)) (s : Nat)
    (h : pendLookup s pend = none) :
    collectChain pend s = ([], pend) := by
  unfold collectChain
  cases pend with
  | nil => rfl
  | cons a t =>
    show collectChainAux (t.length + 1) (a :: t) s = ([], a :: t)
    unfold collectChainAux
    rw [h]

theorem collectChain_eq_some (pend : List (Nat × ParsedPacket)) (s : Nat) (pkt : ParsedPacket)
    (h : pendLookup s pend = some pkt) :
    collectChain pend s =
      (pkt :: (collectChain (pendErase s pend) (s + 1)).1,
       (collectChain (pendErase s pend) (s + 1)).2) := by
  have hlt := pendErase_length_lt pend s pkt h
  unfold collectChain
  cases hp : pend with
  | nil =>
    subst hp
    simp [pendLookup] at h
  | cons a t =>
    subst hp
    show collectChainAux (t.length + 1) (a :: t) s = _
    conv_lhs => unfold collectChainAux
    rw [h]
    show (pkt :: (collectChainAux t.length (pendErase s (a :: t)) (s + 1)).1,
        (collectChainAux t.length (pendErase s (a :: t)) (s + 1)).2) = _
    rw [collectChainAux_congr t.length ((pendErase s (a :: t)).length)
      (pendErase s (a :: t)) (s + 1) (by simp at hlt ⊢; omega) le_rfl]

theorem collectChain_spec (g : Nat → ParsedPacket) :
    ∀ (d : Nat) (pend : List (Nat × ParsedPacket)) (s : Nat),
    (∀ j, s ≤ j → j < s + d → pendLookup j pend = some (g j)) →
    pendLookup (s + d) pend = none →
    (collectChain pend s).1 = (List.range' s d).map g ∧
    (∀ j, pendLookup j (collectChain pend s).2
      = if s ≤ j ∧ j < s + d then none else pendLookup j pend) := by
  intro d
  induction d with
  | zero =>
    intro pend s hsome hnone
    rw [collectChain_eq_none pend s (by simpa using hnone)]
    refine ⟨by simp, ?_⟩
    intro j
    rw [if_neg (by omega)]
  | succ k ih =>
    intro pend s hsome hnone
    have hs : pendLookup s pend = some (g s) := hsome s le_rfl (by omega)
    rw [collectChain_eq_some pend s (g s) hs]
    have hrec := ih (pendErase s pend) (s + 1)
      (fun j hj1 hj2 => by
        rw [pendLookup_erase]
        rw [if_neg (by omega)]
        exact hsome j (by omega) (by omega))
      (by
        rw [pendLookup_erase]
        rw [if_neg (by omega)]
        have := hnone
        rw [show s + (k + 1) = s + 1 + k by omega] at this
        exact this)
    refine ⟨?_, ?_⟩
    · simp only [List.range'_succ, List.map_cons]
      rw [hrec.1]
    · intro j
      rw [hrec.2 j, pendLookup_erase]
      by_cases h1 : s + 1 ≤ j ∧ j < s + 1 + k
      · rw [if_pos h1, if_pos (by omega)]
      · rw [if_neg h1]
        by_cases h2 : j = s
        · rw [if_pos h2, if_pos (by omega)]
        · rw [if_neg h2, if_neg (by omega)]

theorem procPackets_data_chain (pp : Nat → ParsedPacket)
    (hty : ∀ j, (pp j).type = PacketTypeData) (hsq : ∀ j, (pp j).sequence = j) :
    ∀ (n s : Nat) (st : RecvState),
    procPackets ((List.range' s (n + 1)).map pp) st =
      ({ processedSequences := (List.range' s (n + 1)).reverse ++ st.processedSequences
         nextExpectedSequence := s + n + 1
         pendingPackets := st.pendingPackets
         out := st.out ++ ((List.range' s (n + 1)).map (fun j => (pp j).packet.data)).flatten },
       false) := by
  intro n
  induction n with
  | zero =>
    intro s st
    simp only [List.range'_succ, List.range'_zero, List.map_cons, List.map_nil]
    unfold procPackets
    rw [if_pos (hty s)]
    have hout : (if ((pp s).packet.data).length > 0
        then { st with processedSequences := (pp s).sequence :: st.processedSequences
                       out := ({ st with processedSequences :=
                         (pp s).sequence :: st.processedSequences } : RecvState).out
                           ++ (pp s).packet.data }
        else { st with processedSequences := (pp s).sequence :: st.processedSequences })
      = { st with processedSequences := (pp s).sequence :: st.processedSequences
                  out := st.out ++ (pp s).packet.data } := by
      split
      · rfl
      · rename_i hlen
        have hnil : (pp s).packet.data = [] := by
          rw [← List.length_eq_zero]
          omega
        simp [hnil]
    rw [hout]
    unfold procPackets
    simp [hsq s]
  | succ k ih =>
    intro s st
    rw [show List.range' s (k + 1 + 1) = s :: List.range' (s + 1) (k + 1) from List.range'_succ ..]
    simp only [List.map_cons]
    unfold procPackets
    rw [if_pos (hty s)]
    have hout : (if ((pp s).packet.data).length > 0
        then { st with processedSequences := (pp s).sequence :: st.processedSequences
                       out := ({ st with processedSequences :=
                         (pp s).sequence :: st.processedSequences } : RecvState).out
                           ++ (pp s).packet.data }
        else { st with processedSequences := (pp s).sequence :: st.processedSequences })
      = { st with processedSequences := (pp s).sequence :: st.processedSequences
                  out := st.out ++ (pp s).packet.data } := by
      split
      · rfl
      · rename_i hlen
        have hnil : (pp s).packet.data = [] := by
          rw [← List.length_eq_zero]
          omega
        simp [hnil]
    rw [hout]
    rw [ih (s + 1)]
    simp only [hsq s]
    simp [List.append_assoc, List.reverse_cons]
    try omega

theorem leastNotIn_notMem (S : List Nat) : leastNotIn S ∉ S := by
  unfold leastNotIn
  exact Nat.find_spec (existsNotMemList S)

theorem mem_of_lt_leastNotIn (S : List Nat) (m : Nat) (h : m < leastNotIn S) : m ∈ S := by
  by_contra hm
  have hle : leastNotIn S ≤ m := by
    unfold leastNotIn
    exact Nat.find_min' (existsNotMemList S) hm
  omega

theorem leastNotIn_eq_iff (S : List Nat) (k : Nat) :
    leastNotIn S = k ↔ k ∉ S ∧ ∀ m, m < k → m ∈ S := by
  constructor
  · rintro rfl
    exact ⟨leastNotIn_notMem S, fun m hm => mem_of_lt_leastNotIn S m hm⟩
  · rintro ⟨hk, hall⟩
    have h1 : leastNotIn S ≤ k := by
      unfold leastNotIn
      exact Nat.find_min' (existsNotMemList S) hk
    rcases Nat.lt_or_ge (leastNotIn S) k with hlt | hge
    · exact absurd (hall _ hlt) (leastNotIn_notMem S)
    · omega

theorem leastNotIn_nil : leastNotIn [] = 0 := by
  rw [leastNotIn_eq_iff]
  simp

theorem clientStep_eq_pure (km : KeyManager) (sid : String) (pub : Nat)
    (st : RecvState) (ev : NEvent) (pp : ParsedPacket)
    (hme : isEventForMe ev pub = true)
    (hun : UnwrapEphemeralGiftWrap km ev = some pp) :
    clientStep km sid pub st ev = pureStep sid st pp := by
  unfold clientStep
  rw [if_neg (by simp [hme])]
  rw [hun]

theorem pureStep_inv (payload : Nat → List Nat) (srcPub : Nat) (sid : String)
    (S : List Nat) (st : RecvState) (i : Nat)
    (hInv : Inv payload srcPub sid S st) (hi : i ∉ S) :
    ∃ st2, pureStep sid st (dataPP srcPub sid i (payload i)) = (st2, false) ∧
      Inv payload srcPub sid (i :: S) st2 := by
  obtain ⟨hne, hproc, hpend, hout⟩ := hInv
  have hik : leastNotIn S ≤ i := by
    by_contra hlt
    exact hi (mem_of_lt_leastNotIn S i (by omega))
  rcases Nat.eq_or_lt_of_le hik with hkEq | hkLt
  · -- the delivered packet is exactly the next expected one: drain
    subst hkEq
    have hmNot : leastNotIn (leastNotIn S :: S) ∉ leastNotIn S :: S :=
      leastNotIn_notMem _
    have hkm : leastNotIn S < leastNotIn (leastNotIn S :: S) := by
      by_contra hge
      push_neg at hge
      rcases Nat.eq_or_lt_of_le hge with h1 | h1
      · exact hmNot (by rw [h1]; exact List.mem_cons_self _ _)
      · exact hmNot (List.mem_cons_of_mem _
          (mem_of_lt_leastNotIn S _ h1))
    obtain ⟨hchain1, hchain2⟩ := collectChain_spec
      (fun j => dataPP srcPub sid j (payload j))
      (leastNotIn (leastNotIn S :: S) - (leastNotIn S + 1))
      st.pendingPackets (leastNotIn S + 1)
      (by
        intro j hj1 hj2
        have hjm : j < leastNotIn (leastNotIn S :: S) := by omega
        have hjmem : j ∈ leastNotIn S :: S := mem_of_lt_leastNotIn _ j hjm
        have hjS : j ∈ S := by
          rcases List.mem_cons.mp hjmem with h3 | h3
          · omega
          · exact h3
        rw [hpend j, if_pos ⟨hjS, by omega⟩])
      (by
        rw [show leastNotIn S + 1 + (leastNotIn (leastNotIn S :: S) - (leastNotIn S + 1))
            = leastNotIn (leastNotIn S :: S) by omega]
        rw [hpend _]
        rw [if_neg (by
          rintro ⟨hmem, _⟩
          exact hmNot (List.mem_cons_of_mem _ hmem))])
    unfold pureStep
    rw [if_neg (by simp [dataPP])]
    rw [if_neg (by simp [dataPP])]
    rw [show (dataPP srcPub sid (leastNotIn S) (payload (leastNotIn S))).sequence
        = leastNotIn S from rfl]
    rw [hproc (leastNotIn S)]
    rw [if_neg (by simp)]
    rw [hne]
    rw [if_neg (by omega)]
    show ∃ st2, procPackets
        (dataPP srcPub sid (leastNotIn S) (payload (leastNotIn S))
          :: (collectChain st.pendingPackets (leastNotIn S + 1)).1)
        { processedSequences := st.processedSequences
          nextExpectedSequence := leastNotIn S
          pendingPackets := (collectChain st.pendingPackets (leastNotIn S + 1)).2
          out := st.out }
      = (st2, false) ∧ Inv payload srcPub sid (leastNotIn S :: S) st2
    rw [hchain1]
    rw [show (dataPP srcPub sid (leastNotIn S) (payload (leastNotIn S)))
          :: (List.range' (leastNotIn S + 1)
              (leastNotIn (leastNotIn S :: S) - (leastNotIn S + 1))).map
            (fun j => dataPP srcPub sid j (payload j))
        = (List.range' (leastNotIn S)
            ((leastNotIn (leastNotIn S :: S) - (leastNotIn S + 1)) + 1)).map
            (fun j => dataPP srcPub sid j (payload j)) from by
      rw [List.range'_succ]
      simp]
    rw [procPackets_data_chain (fun j => dataPP srcPub sid j (payload j))
      (fun j => rfl) (fun j => rfl)]
    refine ⟨_, rfl, ?_, ?_, ?_, ?_⟩
    · show leastNotIn S + (leastNotIn (leastNotIn S :: S) - (leastNotIn S + 1)) + 1
        = leastNotIn (leastNotIn S :: S)
      omega
    · intro j
      show ((List.range' (leastNotIn S)
          ((leastNotIn (leastNotIn S :: S) - (leastNotIn S + 1)) + 1)).reverse
            ++ st.processedSequences).contains j
        = decide (j < leastNotIn (leastNotIn S :: S))
      rw [contains_eq_decide_mem]
      rw [decide_eq_decide]
      have hjold : j ∈ st.processedSequences ↔ j < leastNotIn S := by
        have h1 := hproc j
        rw [contains_eq_decide_mem] at h1
        exact decide_eq_decide.mp h1
      rw [List.mem_append, List.mem_reverse, List.mem_range'_1, hjold]
      omega
    · intro j
      show pendLookup j ((collectChain st.pendingPackets (leastNotIn S + 1)).2) = _
      rw [hchain2 j]
      by_cases h1 : leastNotIn S + 1 ≤ j ∧
          j < leastNotIn S + 1 + (leastNotIn (leastNotIn S :: S) - (leastNotIn S + 1))
      · rw [if_pos h1, if_neg (by omega)]
      · rw [if_neg h1, hpend j]
        by_cases h2 : j ∈ S ∧ leastNotIn S ≤ j
        · have hjk : j ≠ leastNotIn S := by
            intro he
            exact leastNotIn_notMem S (he ▸ h2.1)
          rw [if_pos h2, if_pos ⟨List.mem_cons_of_mem _ h2.1, by omega⟩]
        · rw [if_neg h2, if_neg (by
            rintro ⟨hmem, hj⟩
            rcases List.mem_cons.mp hmem with h3 | h3
            · omega
            · exact h2 ⟨h3, by omega⟩)]
    · show st.out ++ ((List.range' (leastNotIn S)
          ((leastNotIn (leastNotIn S :: S) - (leastNotIn S + 1)) + 1)).map
            (fun j => (dataPP srcPub sid j (payload j)).packet.data)).flatten = _
      rw [show (fun j => (dataPP srcPub sid j (payload j)).packet.data) = payload from rfl]
      rw [hout]
      rw [← List.flatten_append, ← List.map_append]
      rw [show List.range' 0 (leastNotIn S)
            ++ List.range' (leastNotIn S)
                ((leastNotIn (leastNotIn S :: S) - (leastNotIn S + 1)) + 1)
          = List.range' 0 (leastNotIn (leastNotIn S :: S)) from by
        have := List.range'_append_1 0 (leastNotIn S)
          ((leastNotIn (leastNotIn S :: S) - (leastNotIn S + 1)) + 1)
        simp only [Nat.zero_add] at this
        rw [this]
        congr 1
        omega]
  · -- the delivered packet is ahead of the next expected one: buffer it
    have hkeq : leastNotIn (i :: S) = leastNotIn S := by
      rw [leastNotIn_eq_iff]
      refine ⟨?_, ?_⟩
      · intro hmem
        rcases List.mem_cons.mp hmem with h | h
        · omega
        · exact leastNotIn_notMem S h
      · intro mm hmm
        exact List.mem_cons_of_mem _ (mem_of_lt_leastNotIn S mm hmm)
    refine ⟨⟨st.processedSequences, st.nextExpectedSequence,
        pendInsert i (dataPP srcPub sid i (payload i)) st.pendingPackets, st.out⟩, ?_, ?_⟩
    · unfold pureStep
      rw [if_neg (by simp [dataPP])]
      rw [if_neg (by simp [dataPP])]
      rw [show (dataPP srcPub sid i (payload i)).sequence = i from rfl]
      rw [hproc i]
      rw [if_neg (by simp; omega)]
      rw [hne]
      rw [if_pos (by omega)]
    · refine ⟨?_, ?_, ?_, ?_⟩
      · rw [hkeq]
        exact hne
      · intro j
        rw [hkeq]
        exact hproc j
      · intro j
        show pendLookup j (pendInsert i (dataPP srcPub sid i (payload i))
          st.pendingPackets) = _
        rw [pendLookup_insert, hkeq]
        by_cases hji : j = i
        · subst hji
          rw [if_pos rfl, if_pos ⟨List.mem_cons_self _ _, by omega⟩]
        · rw [if_neg hji, hpend j]
          by_cases h2 : j ∈ S ∧ leastNotIn S ≤ j
          · rw [if_pos h2, if_pos ⟨List.mem_cons_of_mem _ h2.1, h2.2⟩]
          · rw [if_neg h2, if_neg (by
              rintro ⟨hmem, hj⟩
              rcases List.mem_cons.mp hmem with h3 | h3
              · exact hji h3
              · exact h2 ⟨h3, hj⟩)]
      · rw [hkeq]
        exact hout

theorem runLoop_inv (km : KeyManager) (sid : String) (clientPub : Nat)
    (payload : Nat → List Nat) (srcPub : Nat) :
    ∀ (evs : List NEvent) (l : List Nat),
    List.Forall₂ (fun ev i => isEventForMe ev clientPub = true ∧
      UnwrapEphemeralGiftWrap km ev = some (dataPP srcPub sid i (payload i))) evs l →
    ∀ (S : List Nat) (st : RecvState),
    (∀ i ∈ l, i ∉ S) → l.Nodup → Inv payload srcPub sid S st →
    ∃ S2 st2, runLoopAux km sid clientPub evs st = (st2, false) ∧
      (∀ m, m ∈ S2 ↔ m ∈ l ∨ m ∈ S) ∧ Inv payload srcPub sid S2 st2 := by
  intro evs l hf2
  induction hf2 with
  | nil =>
    intro S st hdisj hnd hinv
    exact ⟨S, st, rfl, by simp, hinv⟩
  | @cons ev i evs2 l2 hpair hrest ih =>
    intro S st hdisj hnd hinv
    obtain ⟨st1, hstep, hinv1⟩ :=
      pureStep_inv payload srcPub sid S st i hinv (hdisj i (by simp))
    have hcs : clientStep km sid clientPub st ev = (st1, false) := by
      rw [clientStep_eq_pure km sid clientPub st ev _ hpair.1 hpair.2, hstep]
    obtain ⟨S2, st2, hrun, hmem2, hinv2⟩ := ih (i :: S) st1
      (fun x hx => by
        intro hmem
        rcases List.mem_cons.mp hmem with h | h
        · subst h
          exact (List.nodup_cons.mp hnd).1 hx
        · exact hdisj x (by simp [hx]) h)
      (List.nodup_cons.mp hnd).2 hinv1
    refine ⟨S2, st2, ?_, ?_, hinv2⟩
    · simp only [runLoopAux]
      rw [hcs]
      simpa using hrun
    · intro mm
      rw [hmem2 mm]
      simp only [List.mem_cons]
      tauto

/-- C2: for any permutation of N consecutive data packets of the same
session and direction delivered to the receive loop
(`readServerNostrResponses`), the bytes written to the TCP connection
equal the concatenation of the packets' payloads in increasing sequence
order; moreover a packet whose sequence is not the next expected one
(and not yet processed) is buffered in the pending map unchanged
otherwise. -/
theorem c2_receive_ordering (km : KeyManager) (sid : String) (clientPub srcPub : Nat)
    (payload : Nat → List Nat) (N : Nat) (l : List Nat) (evs : List NEvent)
    (hperm : l.Perm (List.range N))
    (hf2 : List.Forall₂ (fun ev i => isEventForMe ev clientPub = true ∧
      UnwrapEphemeralGiftWrap km ev = some (dataPP srcPub sid i (payload i))) evs l) :
    (runLoop km sid clientPub evs initRecvState).out
      = ((List.range N).map payload).flatten ∧
    (∀ (st : RecvState) (pp : ParsedPacket), pp.sessionID = sid →
      pp.direction = "server_to_client" →
      st.processedSequences.contains pp.sequence = false →
      pp.sequence ≠ st.nextExpectedSequence →
      pureStep sid st pp
        = ({ st with
             pendingPackets := pendInsert pp.sequence pp st.pendingPackets }, false)) := by
  constructor
  · have hinv0 : Inv payload srcPub sid [] initRecvState := by
      refine ⟨?_, ?_, ?_, ?_⟩
      · rw [leastNotIn_nil]
        rfl
      · intro j
        rw [leastNotIn_nil]
        simp [initRecvState]
      · intro j
        simp [initRecvState, pendLookup]
      · rw [leastNotIn_nil]
        rfl
    obtain ⟨S2, st2, hrun, hmem, hinv⟩ := runLoop_inv km sid clientPub payload srcPub
      evs l hf2 [] initRecvState (by simp)
      (hperm.nodup_iff.mpr (List.nodup_range N)) hinv0
    have hS2 : leastNotIn S2 = N := by
      rw [leastNotIn_eq_iff]
      constructor
      · intro hmemN
        rcases (hmem N).mp hmemN with h | h
        · exact absurd (hperm.mem_iff.mp h) (by simp)
        · simp at h
      · intro mm hmm
        exact (hmem mm).mpr (Or.inl (hperm.mem_iff.mpr (List.mem_range.mpr hmm)))
    show (runLoopAux km sid clientPub evs initRecvState).1.out = _
    rw [hrun]
    have hout := hinv.2.2.2
    rw [hS2] at hout
    rw [hout, List.range_eq_range']
  · intro st pp h1 h2 h3 h4
    unfold pureStep
    rw [if_neg (by simp [h1]), if_neg (by simp [h2]), h3]
    rw [if_neg (by simp)]
    rw [if_pos h4]

/-- Witness for C2: two data packets (sequences 0 and 1) delivered in
reversed order through real gift wraps; the bytes come out in sequence
order. -/
theorem c2_receive_ordering_witness :
    ([1, 0].Perm (List.range 2)) ∧
    List.Forall₂ (fun ev i => isEventForMe ev (getPublicKey 2) = true ∧
      UnwrapEphemeralGiftWrap ⟨some ⟨2, getPublicKey 2⟩, [], 0, [], []⟩ ev
        = some (dataPP (getPublicKey 1) "s" i
            ((fun i => if i = 0 then [10] else [20]) i)))
      [signEvent 3 (NEvent.mk 21059 0
          (nip44Encrypt
            (createEphemeralRumorWith "v2.0.2" ⟨1, getPublicKey 1⟩ ⟨[20]⟩
              ⟨"data", "s", 1, "server_to_client", "", 0, "", ""⟩ 0)
            (genConversationKey (getPublicKey 2) 3))
          [["p", decReprS (getPublicKey 2)]] (getPublicKey 3) none),
       signEvent 3 (NEvent.mk 21059 0
          (nip44Encrypt
            (createEphemeralRumorWith "v2.0.2" ⟨1, getPublicKey 1⟩ ⟨[10]⟩
              ⟨"data", "s", 0, "server_to_client", "", 0, "", ""⟩ 0)
            (genConversationKey (getPublicKey 2) 3))
          [["p", decReprS (getPublicKey 2)]] (getPublicKey 3) none)]
      [1, 0] ∧
    (runLoop ⟨some ⟨2, getPublicKey 2⟩, [], 0, [], []⟩ "s" (getPublicKey 2)
      [signEvent 3 (NEvent.mk 21059 0
          (nip44Encrypt
            (createEphemeralRumorWith "v2.0.2" ⟨1, getPublicKey 1⟩ ⟨[20]⟩
              ⟨"data", "s", 1, "server_to_client", "", 0, "", ""⟩ 0)
            (genConversationKey (getPublicKey 2) 3))
          [["p", decReprS (getPublicKey 2)]] (getPublicKey 3) none),
       signEvent 3 (NEvent.mk 21059 0
          (nip44Encrypt
            (createEphemeralRumorWith "v2.0.2" ⟨1, getPublicKey 1⟩ ⟨[10]⟩
              ⟨"data", "s", 0, "server_to_client", "", 0, "", ""⟩ 0)
            (genConversationKey (getPublicKey 2) 3))
          [["p", decReprS (getPublicKey 2)]] (getPublicKey 3) none)]
      initRecvState).out
      = ((List.range 2).map (fun i => if i = 0 then [10] else [20])).flatten := by
  have hf2 : List.Forall₂ (fun ev i => isEventForMe ev (getPublicKey 2) = true ∧
      UnwrapEphemeralGiftWrap ⟨some ⟨2, getPublicKey 2⟩, [], 0, [], []⟩ ev
        = some (dataPP (getPublicKey 1) "s" i
            ((fun i => if i = 0 then [10] else [20]) i)))
      [signEvent 3 (NEvent.mk 21059 0
          (nip44Encrypt
            (createEphemeralRumorWith "v2.0.2" ⟨1, getPublicKey 1⟩ ⟨[20]⟩
              ⟨"data", "s", 1, "server_to_client", "", 0, "", ""⟩ 0)
            (genConversationKey (getPublicKey 2) 3))
          [["p", decReprS (getPublicKey 2)]] (getPublicKey 3) none),
       signEvent 3 (NEvent.mk 21059 0
          (nip44Encrypt
            (createEphemeralRumorWith "v2.0.2" ⟨1, getPublicKey 1⟩ ⟨[10]⟩
              ⟨"data", "s", 0, "server_to_client", "", 0, "", ""⟩ 0)
            (genConversationKey (getPublicKey 2) 3))
          [["p", decReprS (getPublicKey 2)]] (getPublicKey 3) none)]
      [1, 0] :=
    List.Forall₂.cons ⟨by decide, by decide⟩
      (List.Forall₂.cons ⟨by decide, by decide⟩ List.Forall₂.nil)
  exact ⟨by decide, hf2,
    (c2_receive_ordering ⟨some ⟨2, getPublicKey 2⟩, [], 0, [], []⟩ "s"
      (getPublicKey 2) (getPublicKey 1) (fun i => if i = 0 then [10] else [20])
      2 [1, 0] _ (by decide) hf2).1⟩

/-! ## Claim C5 -/

theorem procPackets_single_data (pp : ParsedPacket) (st : RecvState)
    (hty : pp.type = PacketTypeData) :
    procPackets [pp] st =
      ({ st with processedSequences := pp.sequence :: st.processedSequences
                 nextExpectedSequence := pp.sequence + 1
                 out := st.out ++ pp.packet.data }, false) := by
  unfold procPackets
  rw [if_pos hty]
  split
  · rfl
  · rename_i hlen
    have hnil : pp.packet.data = [] := by
      rw [← List.length_eq_zero]
      omega
    simp only [hnil, List.append_nil]
    rfl

/-- C5: delivering the same (session, sequence) packet twice to the
receive loop produces exactly one write of its payload: the double
delivery of a data packet at the expected sequence emits its payload
once, and once a sequence is in the processed-sequence set, any later
packet bearing it for the same session and direction is dropped with no
state change and no byte emission. -/
theorem c5_duplicate_suppression (km : KeyManager) (sid : String) (clientPub : Nat)
    (ev : NEvent) (pp : ParsedPacket)
    (hme : isEventForMe ev clientPub = true)
    (hun : UnwrapEphemeralGiftWrap km ev = some pp)
    (hsess : pp.sessionID = sid) (hdir : pp.direction = "server_to_client")
    (hty : pp.type = PacketTypeData) (hseq : pp.sequence = 0) :
    (runLoop km sid clientPub [ev, ev] initRecvState).out = pp.packet.data ∧
    (∀ (st : RecvState) (ev2 : NEvent) (pp2 : ParsedPacket),
      isEventForMe ev2 clientPub = true →
      UnwrapEphemeralGiftWrap km ev2 = some pp2 →
      pp2.sessionID = sid → pp2.direction = "server_to_client" →
      st.processedSequences.contains pp2.sequence = true →
      clientStep km sid clientPub st ev2 = (st, false)) := by
  have hdrop : ∀ (st : RecvState) (ev2 : NEvent) (pp2 : ParsedPacket),
      isEventForMe ev2 clientPub = true →
      UnwrapEphemeralGiftWrap km ev2 = some pp2 →
      pp2.sessionID = sid → pp2.direction = "server_to_client" →
      st.processedSequences.contains pp2.sequence = true →
      clientStep km sid clientPub st ev2 = (st, false) := by
    intro st ev2 pp2 hme2 hun2 hsess2 hdir2 hdup
    rw [clientStep_eq_pure km sid clientPub st ev2 pp2 hme2 hun2]
    unfold pureStep
    rw [if_neg (by simp [hsess2]), if_neg (by simp [hdir2]), hdup]
    rw [if_pos rfl]
  refine ⟨?_, hdrop⟩
  have hstep1 : pureStep sid initRecvState pp =
      ({ processedSequences := [pp.sequence]
         nextExpectedSequence := pp.sequence + 1
         pendingPackets := []
         out := pp.packet.data }, false) := by
    unfold pureStep
    rw [if_neg (by simp [hsess]), if_neg (by simp [hdir])]
    rw [if_neg (by simp [initRecvState])]
    rw [if_neg (by simp [initRecvState, hseq])]
    show procPackets (pp :: (collectChain [] 1).1)
      { initRecvState with pendingPackets := (collectChain [] 1).2 } = _
    rw [collectChain_eq_none [] 1 rfl]
    rw [procPackets_single_data pp _ hty]
    simp [initRecvState]
  have hcs1 : clientStep km sid clientPub initRecvState ev =
      ({ processedSequences := [pp.sequence]
         nextExpectedSequence := pp.sequence + 1
         pendingPackets := []
         out := pp.packet.data }, false) := by
    rw [clientStep_eq_pure km sid clientPub initRecvState ev pp hme hun]
    exact hstep1
  have hcs2 : clientStep km sid clientPub
      { processedSequences := [pp.sequence]
        nextExpectedSequence := pp.sequence + 1
        pendingPackets := []
        out := pp.packet.data } ev =
      ({ processedSequences := [pp.sequence]
         nextExpectedSequence := pp.sequence + 1
         pendingPackets := []
         out := pp.packet.data }, false) :=
    hdrop _ ev pp hme hun hsess hdir (by simp)
  show (runLoopAux km sid clientPub [ev, ev] initRecvState).1.out = pp.packet.data
  simp only [runLoopAux]
  rw [hcs1]
  simp only [Bool.false_eq_true, if_false]
  rw [hcs2]
  simp

/-- Witness for C5: a concrete data gift wrap at sequence 0 delivered
twice writes its single byte once. -/
theorem c5_duplicate_suppression_witness :
    (isEventForMe (signEvent 3 (NEvent.mk 21059 0
        (nip44Encrypt
          (createEphemeralRumorWith "v2.0.2" ⟨1, getPublicKey 1⟩ ⟨[42]⟩
            ⟨"data", "s", 0, "server_to_client", "", 0, "", ""⟩ 0)
          (genConversationKey (getPublicKey 2) 3))
        [["p", decReprS (getPublicKey 2)]] (getPublicKey 3) none)) (getPublicKey 2)
      = true) ∧
    (runLoop ⟨some ⟨2, getPublicKey 2⟩, [], 0, [], []⟩ "s" (getPublicKey 2)
      [signEvent 3 (NEvent.mk 21059 0
        (nip44Encrypt
          (createEphemeralRumorWith "v2.0.2" ⟨1, getPublicKey 1⟩ ⟨[42]⟩
            ⟨"data", "s", 0, "server_to_client", "", 0, "", ""⟩ 0)
          (genConversationKey (getPublicKey 2) 3))
        [["p", decReprS (getPublicKey 2)]] (getPublicKey 3) none),
       signEvent 3 (NEvent.mk 21059 0
        (nip44Encrypt
          (createEphemeralRumorWith "v2.0.2" ⟨1, getPublicKey 1⟩ ⟨[42]⟩
            ⟨"data", "s", 0, "server_to_client", "", 0, "", ""⟩ 0)
          (genConversationKey (getPublicKey 2) 3))
        [["p", decReprS (getPublicKey 2)]] (getPublicKey 3) none)]
      initRecvState).out
      = (dataPP (getPublicKey 1) "s" 0 [42]).packet.data := by
  refine ⟨by decide, ?_⟩
  exact (c5_duplicate_suppression ⟨some ⟨2, getPublicKey 2⟩, [], 0, [], []⟩ "s"
    (getPublicKey 2) _ (dataPP (getPublicKey 1) "s" 0 [42])
    (by decide) (by decide) rfl rfl rfl rfl).1

/-! ## Claim C6 -/

/-- C6: a close packet is terminal. Processing a batch of collected
packets stops at the first close packet: everything after it is
discarded (the result equals processing the prefix up to and including
the close, with the stop flag set), and once an event makes the receive
loop stop, appending further events leaves the loop result unchanged;
moreover processing a close packet at the expected sequence stops the
loop without emitting any bytes. -/
theorem c6_close_terminal (km : KeyManager) (sid : String) (clientPub : Nat) :
    (∀ (pre : List ParsedPacket) (cl : ParsedPacket) (post : List ParsedPacket)
        (st : RecvState),
      (∀ p ∈ pre, p.type = PacketTypeData) → cl.type = PacketTypeClose →
      procPackets (pre ++ cl :: post) st = procPackets (pre ++ [cl]) st ∧
      (procPackets (pre ++ cl :: post) st).2 = true) ∧
    (∀ (evs1 evs2 : List NEvent) (st : RecvState),
      (runLoopAux km sid clientPub evs1 st).2 = true →
      runLoopAux km sid clientPub (evs1 ++ evs2) st =
        runLoopAux km sid clientPub evs1 st) ∧
    (∀ (st : RecvState) (ev : NEvent) (pp : ParsedPacket),
      isEventForMe ev clientPub = true →
      UnwrapEphemeralGiftWrap km ev = some pp →
      pp.sessionID = sid → pp.direction = "server_to_client" →
      st.processedSequences.contains pp.sequence = false →
      pp.sequence = st.nextExpectedSequence →
      pp.type = PacketTypeClose →
      (clientStep km sid clientPub st ev).2 = true ∧
      (clientStep km sid clientPub st ev).1.out = st.out) := by
  refine ⟨?_, ?_, ?_⟩
  · intro pre cl post st hpre hcl
    induction pre generalizing st with
    | nil =>
      simp only [List.nil_append]
      constructor
      · show procPackets (cl :: post) st = procPackets (cl :: []) st
        unfold procPackets
        rw [if_neg (by rw [hcl]; decide), if_pos hcl,
            if_neg (by rw [hcl]; decide), if_pos hcl]
      · show (procPackets (cl :: post) st).2 = true
        unfold procPackets
        rw [if_neg (by rw [hcl]; decide), if_pos hcl]
    | cons p pre ih =>
      have hp : p.type = PacketTypeData := hpre p (by simp)
      have hpre2 : ∀ q ∈ pre, q.type = PacketTypeData := by
        intro q hq
        exact hpre q (by simp [hq])
      simp only [List.cons_append]
      constructor
      · show procPackets (p :: (pre ++ cl :: post)) st = _
        unfold procPackets
        rw [if_pos hp, if_pos hp]
        split
        · exact (ih _ hpre2).1
        · exact (ih _ hpre2).1
      · show (procPackets (p :: (pre ++ cl :: post)) st).2 = true
        unfold procPackets
        rw [if_pos hp]
        split
        · exact (ih _ hpre2).2
        · exact (ih _ hpre2).2
  · intro evs1 evs2
    induction evs1 with
    | nil =>
      intro st h
      simp [runLoopAux] at h
    | cons ev rest ih =>
      intro st h
      simp only [runLoopAux, List.cons_append] at h ⊢
      by_cases hres : (clientStep km sid clientPub st ev).2 = true
      · rw [if_pos hres, if_pos hres]
      · rw [if_neg hres] at h
        rw [if_neg hres, if_neg hres]
        exact ih _ h
  · intro st ev pp hme hun hsess hdir hdup hseqeq hty
    have hc : clientStep km sid clientPub st ev =
        ({ st with
           processedSequences := pp.sequence :: st.processedSequences
           pendingPackets :=
             (collectChain st.pendingPackets (st.nextExpectedSequence + 1)).2 },
         true) := by
      rw [clientStep_eq_pure km sid clientPub st ev pp hme hun]
      unfold pureStep
      rw [if_neg (by simp [hsess]), if_neg (by simp [hdir]), hdup]
      rw [if_neg (by simp), if_neg (by simp [hseqeq])]
      show procPackets
          (pp :: (collectChain st.pendingPackets (st.nextExpectedSequence + 1)).1)
          { st with pendingPackets :=
              (collectChain st.pendingPackets (st.nextExpectedSequence + 1)).2 } = _
      unfold procPackets
      rw [if_neg (by rw [hty]; decide), if_pos hty]
    rw [hc]
    exact ⟨rfl, rfl⟩

/-- Witness for C6: a concrete loop that receives a close event at
sequence 0 stops, and appending one more event does not change the
result. -/
theorem c6_close_terminal_witness :
    procPackets
        ([(⟨⟨[]⟩, "close", "s", 0, "server_to_client", "", 0, "", "", 0⟩ : ParsedPacket)] ++
          [⟨⟨[]⟩, "data", "s", 1, "server_to_client", "", 0, "", "", 0⟩])
        initRecvState =
      procPackets [(⟨⟨[]⟩, "close", "s", 0, "server_to_client", "", 0, "", "", 0⟩ : ParsedPacket)]
        initRecvState ∧
    (clientStep ⟨some ⟨2, getPublicKey 2⟩, [], 0, [], []⟩ "s" (getPublicKey 2)
        initRecvState
        (signEvent 3 (NEvent.mk 21059 0
          (nip44Encrypt
            (createEphemeralRumorWith "v2.0.2" ⟨1, getPublicKey 1⟩ ⟨[]⟩
              ⟨"close", "s", 0, "server_to_client", "", 0, "", ""⟩ 0)
            (genConversationKey (getPublicKey 2) 3))
          [["p", decReprS (getPublicKey 2)]] (getPublicKey 3) none))).2 = true := by
  constructor
  · have h := ((c6_close_terminal ⟨some ⟨2, getPublicKey 2⟩, [], 0, [], []⟩ "s"
      (getPublicKey 2)).1 []
      ⟨⟨[]⟩, "close", "s", 0, "server_to_client", "", 0, "", "", 0⟩
      [⟨⟨[]⟩, "data", "s", 1, "server_to_client", "", 0, "", "", 0⟩]
      initRecvState (by simp) rfl).1
    simpa using h
  · exact ((c6_close_terminal ⟨some ⟨2, getPublicKey 2⟩, [], 0, [], []⟩ "s"
      (getPublicKey 2)).2.2 initRecvState _
      ⟨⟨[]⟩, "close", "s", 0, "server_to_client", "", 0, "", "", getPublicKey 1⟩
      (by decide) (by decide) rfl rfl (by decide) rfl rfl).1

end TcpNostr
